import Mathlib

/-!
Verification development for the smoldot light-client stack.

This file gives a shallow embedding, in Lean, of the parts of the source
that the specification's claims are about:

* `Smoldot.Net` — the `ChainNetwork` coordinator of
  `lib/src/network/service.rs`: chain registration (`add_chain`), the
  desired/undesired gossip bookkeeping, `gossip_open`, and the
  `NotificationsOutResult` branch of `next_event`.
* `Smoldot.RtSvc` — the runtime service of
  `light-base/src/runtime_service.rs`: pinned-block accounting on
  finalization, the `subscribe_all` snapshot, and `unpin_block_inner`.
* `Smoldot.Compile` — `SuccessfulRuntime::from_storage`.
* `Smoldot.Host` — the read-only runtime host wrapper
  (`lib/src/executor/read_only_runtime_host.rs`).
* `Smoldot.Driver` — the per-connection driver loop of
  `light-base/src/network_service/tasks.rs` (the full-node variant in
  `full-node/src/network_service/tasks.rs` has the same structure).

Rust-side data that the claims treat as opaque (32-byte hashes, `PeerId`s,
SCALE-encoded payloads) is embedded as `Nat`, which preserves exactly the
equality/ordering structure the source relies on.
-/

namespace Smoldot

namespace Net

/-- `Role` from `network/protocol`. Only carried around; never branched on
by the embedded operations except to forward it. -/
inductive Role where
  | full
  | light
  | authority
deriving DecidableEq, Repr

/-- `GrandpaState` (`service.rs`). -/
structure GrandpaState where
  roundNumber : Nat
  setId : Nat
  commitFinalizedHeight : Nat
deriving DecidableEq, Repr

/-- `GossipKind` (`service.rs`): a single variant. -/
inductive GossipKind where
  | consensusTransactions
deriving DecidableEq, Repr

/-- `ChainConfig` (`service.rs`). -/
structure ChainConfig where
  genesisHash : Nat
  forkId : Option String
  blockNumberBytes : Nat
  grandpaProtocolConfig : Option GrandpaState
  allowInboundBlockRequests : Bool
  bestHash : Nat
  bestNumber : Nat
  role : Role
deriving DecidableEq, Repr

/-- `Chain` (`service.rs`): the per-chain record stored in the
`chains` slab. -/
structure Chain where
  blockNumberBytes : Nat
  genesisHash : Nat
  forkId : Option String
  role : Role
  bestHash : Nat
  bestNumber : Nat
  grandpaProtocolConfig : Option GrandpaState
  allowInboundBlockRequests : Bool
deriving DecidableEq, Repr

/-- `AddChainError` (`service.rs`). -/
inductive AddChainError where
  | duplicate (existingIdentical : Nat)
deriving DecidableEq, Repr

/-- The sub-state of `ChainNetwork` that `add_chain` reads and writes:
the `chains` slab and the `chains_by_protocol_info` map. Since the module
has no `remove_chain` (`service.rs` line 449), the slab never has holes
and `vacant_entry().key()` is the current length. -/
structure ChainsState where
  chains : List Chain
  chainsByProtocolInfo : List ((Nat × Option String) × Nat)
deriving DecidableEq, Repr

/-- Shorthand for lookup in the association list embedding of
`chains_by_protocol_info`. -/
def protocolInfoLookup (m : List ((Nat × Option String) × Nat))
    (k : Nat × Option String) : Option Nat :=
  (m.find? (fun e => e.1 = k)).map (·.2)

/-- `ChainNetwork::add_chain` (`service.rs` lines 417-447): returns
`Duplicate` naming the previously registered chain when
`(genesis_hash, fork_id)` is already a key of `chains_by_protocol_info`,
and otherwise registers the chain under the vacant slab key. -/
def addChain (s : ChainsState) (config : ChainConfig) :
    ChainsState × (AddChainError ⊕ Nat) :=
  let chainId := s.chains.length
  match protocolInfoLookup s.chainsByProtocolInfo (config.genesisHash, config.forkId) with
  | some existing => (s, Sum.inl (AddChainError.duplicate existing))
  | none =>
      ({ chains := s.chains ++ [{
           blockNumberBytes := config.blockNumberBytes
           genesisHash := config.genesisHash
           forkId := config.forkId
           role := config.role
           bestHash := config.bestHash
           bestNumber := config.bestNumber
           grandpaProtocolConfig := config.grandpaProtocolConfig
           allowInboundBlockRequests := config.allowInboundBlockRequests }]
         chainsByProtocolInfo :=
           ((config.genesisHash, config.forkId), chainId) :: s.chainsByProtocolInfo },
       Sum.inr chainId)

end Net

end Smoldot

namespace Smoldot

namespace Net

/-- A configuration used by the concrete `add_chain` scenario of the spec
(S1): genesis hash `0x11…`, no fork id. -/
def s1Config : ChainConfig :=
  { genesisHash := 0x11
    forkId := none
    blockNumberBytes := 4
    grandpaProtocolConfig := none
    allowInboundBlockRequests := false
    bestHash := 0x11
    bestNumber := 0
    role := Role.light }

end Net

end Smoldot

namespace Smoldot

namespace Net

/-- `Protocol` (`service.rs`). -/
inductive Protocol where
  | identify
  | ping
  | blockAnnounces (chainIndex : Nat)
  | transactions (chainIndex : Nat)
  | grandpa (chainIndex : Nat)
  | sync (chainIndex : Nat)
  | lightUnknown (chainIndex : Nat)
  | lightStorage (chainIndex : Nat)
  | lightCall (chainIndex : Nat)
  | kad (chainIndex : Nat)
  | syncWarp (chainIndex : Nat)
  | state (chainIndex : Nat)
deriving DecidableEq, Repr

/-- `NotificationsProtocol` (`service.rs`). -/
inductive NotificationsProtocol where
  | blockAnnounces (chainIndex : Nat)
  | transactions (chainIndex : Nat)
  | grandpa (chainIndex : Nat)
deriving DecidableEq, Repr

/-- `SubstreamDirection` (`service.rs`). -/
inductive SubstreamDirection where
  | inbound
  | outbound
deriving DecidableEq, Repr

/-- `NotificationsSubstreamState` (`service.rs`): `Pending` or `Open`. -/
inductive NotificationsSubstreamState where
  | pending
  | opened
deriving DecidableEq, Repr

/-- One element of the `notification_substreams_by_peer_id` ordered set:
a `(NotificationsProtocol, PeerId, SubstreamDirection, state, SubstreamId)`
tuple. -/
structure NotifEntry where
  protocol : NotificationsProtocol
  peer : Nat
  direction : SubstreamDirection
  state : NotificationsSubstreamState
  substreamId : Nat
deriving DecidableEq, Repr

/-- `SubstreamInfo` (`service.rs`). -/
structure SubstreamInfo where
  connectionId : Nat
  protocol : Protocol
deriving DecidableEq, Repr

/-- The view of one connection that `ChainNetwork` reads from the inner
`collection::Network`: the user data (`ConnectionInfo::peer_id`) and the
`connection_state` flags. -/
structure Connection where
  peerId : Option Nat
  established : Bool
  shuttingDown : Bool
deriving DecidableEq, Repr

/-- The sub-state of `ChainNetwork` that the gossip operations and the
`NotificationsOutResult` arm of `next_event` read and write. Ordered sets
(`BTreeSet`) are embedded as lists kept in iteration order; hash sets as
lists with set membership. -/
structure NetState where
  chains : List Chain
  /-- Connections of the inner collection, keyed by `ConnectionId`
  (a dense integer whose `min_value` is 0). -/
  connections : List (Nat × Connection)
  substreams : List (Nat × SubstreamInfo)
  connectionsByPeerId : List (Nat × Nat)
  notificationSubstreams : List NotifEntry
  gossipDesiredPeersByChain : List (Nat × GossipKind × Nat)
  gossipDesiredPeers : List (Nat × GossipKind × Nat)
  unconnectedDesired : List Nat
  connectedUnopenedGossipDesired : List (Nat × Nat × GossipKind)
  openedGossipUndesired : List (Nat × Nat × GossipKind)
deriving DecidableEq, Repr

/-- `self.inner.connection_state(id)`: the flags of the given connection.
Only ever consulted through ids present in `connections_by_peer_id`, which
the source guarantees to be live connections. -/
def connState (s : NetState) (id : Nat) : Connection :=
  ((s.connections.find? (fun e => e.1 = id)).map (·.2)).getD
    { peerId := none, established := false, shuttingDown := false }

/-- The `connections_by_peer_id.range((peer, min)..=(peer, max)).any(

fun id => !connection_state(id).shutting_down)` pattern used by
`gossip_insert_desired` and the shutdown handlers. -/
def hasHealthyConnection (s : NetState) (peer : Nat) : Bool :=
  s.connectionsByPeerId.any fun e =>
    e.1 = peer && !(connState s e.2).shuttingDown

/-- `connections_by_peer_id.range(..).find(established && !shutting_down)`
from `gossip_open`. -/
def findEstablishedConnection (s : NetState) (peer : Nat) : Option Nat :=
  ((s.connectionsByPeerId.filter (fun e => e.1 = peer)).map (·.2)).find?
    fun id => (connState s id).established && !(connState s id).shuttingDown

/-- The `notification_substreams_by_peer_id.range((proto, peer, dir, min,
min)..=(proto, peer, dir, max, max))` pattern: all substreams of a given
protocol, peer and direction, in any state. -/
def notifRange (s : NetState) (proto : NotificationsProtocol) (peer : Nat)
    (dir : SubstreamDirection) : List NotifEntry :=
  s.notificationSubstreams.filter fun e =>
    e.protocol = proto && e.peer = peer && e.direction = dir

/-- Same range restricted to one state (the `(…, Open, min)..=(…, Open,
max)` pattern). -/
def notifRangeState (s : NetState) (proto : NotificationsProtocol)
    (peer : Nat) (dir : SubstreamDirection)
    (st : NotificationsSubstreamState) : List NotifEntry :=
  s.notificationSubstreams.filter fun e =>
    e.protocol = proto && e.peer = peer && e.direction = dir && e.state = st

/-- Fresh `SubstreamId` chosen by `collection::Network` when
`open_out_notifications` allocates a substream: ids are unique, so one
greater than every id in use. -/
def freshSubstreamId (s : NetState) : Nat :=
  ((s.substreams.map (·.1)).foldr max 0) + 1

/-- `ProtocolName` values passed to `encode_protocol_name_string`
(`network/protocol`): the structured content of the per-chain protocol
name `/<genesis>[/<fork>]/<proto>`. -/
inductive ProtocolName where
  | blockAnnounces (genesisHash : Nat) (forkId : Option String)
  | transactions (genesisHash : Nat) (forkId : Option String)
  | grandpa (genesisHash : Nat) (forkId : Option String)
deriving DecidableEq, Repr

/-- Modelled from the spec: the notification-substream handshake payloads.
The SCALE codec of `network/protocol.rs` is not part of the source tree;
per the spec (§4.2, §6) the Block-Announces handshake carries the local
best hash, best number, role and genesis hash, the Transactions handshake
is empty, and the Grandpa handshake is the role encoding. -/
inductive NotifPayload where
  | blockAnnouncesHandshake (bestHash bestNumber : Nat) (role : Role)
      (genesisHash : Nat)
  | emptyPayload
  | roleEncoding (role : Role)
deriving DecidableEq, Repr

/-- Commands issued to the inner `collection::Network` by the embedded
operations. -/
inductive InnerCmd where
  | openOutNotifications (connectionId : Nat) (protocolName : ProtocolName)
      (handshake : NotifPayload) (assignedSubstreamId : Nat)
  | closeOutNotifications (substreamId : Nat)
  | rejectInNotifications (substreamId : Nat)
deriving DecidableEq, Repr

/-- Fallback used to embed the panicking slab index `self.chains[i]`;
theorems about these operations carry the bound `i < chains.length`. -/
def chainAt (s : NetState) (chainIndex : Nat) : Chain :=
  s.chains.getD chainIndex
    { blockNumberBytes := 0, genesisHash := 0, forkId := none
      role := Role.light, bestHash := 0, bestNumber := 0
      grandpaProtocolConfig := none, allowInboundBlockRequests := false }

/-- `ChainNetwork::gossip_open` (`service.rs` lines 2884-3005). Returns
`none` for the `Err(())` cases: an *outbound* Block-Announces substream
(pending or open) already exists, or no established non-shutting-down
connection to the target exists. On success returns the new state and the
command opening the outbound substream, which carries the locally encoded
Block-Announces handshake. -/
def gossipOpen (s : NetState) (chainId : Nat) (target : Nat)
    (kind : GossipKind) : Option (NetState × List InnerCmd) :=
  let chainInfo := chainAt s chainId
  if (notifRange s (NotificationsProtocol.blockAnnounces chainId) target
      SubstreamDirection.outbound).isEmpty = false then
    none
  else
    match findEstablishedConnection s target with
    | none => none
    | some connectionId =>
        let protocolName :=
          ProtocolName.blockAnnounces chainInfo.genesisHash chainInfo.forkId
        let handshake := NotifPayload.blockAnnouncesHandshake
          chainInfo.bestHash chainInfo.bestNumber chainInfo.role
          chainInfo.genesisHash
        let substreamId := freshSubstreamId s
        let s₁ : NetState :=
          { s with
            substreams := s.substreams ++
              [(substreamId,
                { connectionId
                  protocol := Protocol.blockAnnounces chainId })]
            notificationSubstreams := s.notificationSubstreams ++
              [{ protocol := NotificationsProtocol.blockAnnounces chainId
                 peer := target
                 direction := SubstreamDirection.outbound
                 state := NotificationsSubstreamState.pending
                 substreamId }] }
        let s₂ : NetState :=
          if (s.gossipDesiredPeers.contains (target, kind, chainId)) = false
          then
            { s₁ with openedGossipUndesired :=
                s₁.openedGossipUndesired ++ [(chainId, target, kind)] }
          else s₁
        let remaining :=
          s₂.connectedUnopenedGossipDesired.filter
            fun e => e ≠ (target, chainId, kind)
        let s₃ : NetState :=
          { s₂ with connectedUnopenedGossipDesired := remaining }
        some (s₃,
          [InnerCmd.openOutNotifications connectionId protocolName handshake
            substreamId])

/-- The decoded Block-Announces handshake
(`protocol::BlockAnnouncesHandshake`). -/
structure BlockAnnouncesHandshake where
  role : Role
  bestNumber : Nat
  bestHash : Nat
  genesisHash : Nat
deriving DecidableEq, Repr

/-- Modelled from the spec: the bytes of a remote notifications handshake.
`protocol::decode_block_announces_handshake` of `network/protocol.rs` is
not part of the source tree; per the spec the handshake either decodes to
a `BlockAnnouncesHandshake` or fails to decode. -/
inductive RemoteBytes where
  | wellFormed (h : BlockAnnouncesHandshake)
  | malformed
deriving DecidableEq, Repr

/-- Modelled from the spec: `protocol::decode_block_announces_handshake`. -/
def decodeBlockAnnouncesHandshake : RemoteBytes → Option BlockAnnouncesHandshake
  | RemoteBytes.wellFormed h => some h
  | RemoteBytes.malformed => none

/-- `GossipConnectError` (`service.rs`). `substream` stands for
`Substream(NotificationsOutErr)`, whose payload the claims never inspect. -/
inductive GossipConnectError where
  | handshakeDecode
  | genesisMismatch (localGenesis remoteGenesis : Nat)
  | substream
deriving DecidableEq, Repr

/-- The two `Event` variants produced by the Block-Announces arm of the
`NotificationsOutResult` branch of `next_event`. -/
inductive Event where
  | gossipConnected (peerId chainId : Nat) (kind : GossipKind) (role : Role)
      (bestNumber bestHash : Nat)
  | gossipOpenFailed (peerId chainId : Nat) (kind : GossipKind)
      (error : GossipConnectError)
deriving DecidableEq, Repr

/-- `HashSet::insert`: no-op when the element is already present. -/
def insertSet {α : Type} [DecidableEq α] (l : List α) (a : α) : List α :=
  if l.contains a then l else l ++ [a]

/-- The `(BlockAnnounces, peer, Out, Pending, substream_id)` tuple. -/
def pendingBATuple (chainIndex peerId substreamId : Nat) : NotifEntry :=
  { protocol := NotificationsProtocol.blockAnnounces chainIndex
    peer := peerId
    direction := SubstreamDirection.outbound
    state := NotificationsSubstreamState.pending
    substreamId }

/-- The `(BlockAnnounces, peer, Out, Open, substream_id)` tuple. -/
def openBATuple (chainIndex peerId substreamId : Nat) : NotifEntry :=
  { protocol := NotificationsProtocol.blockAnnounces chainIndex
    peer := peerId
    direction := SubstreamDirection.outbound
    state := NotificationsSubstreamState.opened
    substreamId }

/-- `self.substreams.remove(&substream_id)`: drop a substream from the
`substreams` map. -/
def removeSubstreamEntry (s : NetState) (substreamId : Nat) : NetState :=
  { s with substreams :=
      s.substreams.filter fun e => e.1 ≠ substreamId }

/-- `service.rs` lines 1436-1443: removal of the `(BlockAnnounces, peer,
Out, Pending, substream_id)` entry when a `NotificationsOutResult` event
is processed. -/
def removePendingBA (s : NetState) (chainIndex peerId substreamId : Nat) :
    NetState :=
  { s with notificationSubstreams :=
      s.notificationSubstreams.filter fun e =>
        e ≠ pendingBATuple chainIndex peerId substreamId }

/-- `service.rs` lines 1474-1605: the success arm of the Block-Announces
`NotificationsOutResult` handling. The substream is inserted as `Open`,
and outbound Transactions and (when the chain has Grandpa configured)
Grandpa substreams are opened eagerly if absent. -/
def baOkBranch (s : NetState)
    (chainIndex peerId substreamId connectionId : Nat) :
    NetState × List InnerCmd :=
  let s : NetState :=
    { s with notificationSubstreams :=
        s.notificationSubstreams ++
          [openBATuple chainIndex peerId substreamId] }
  let chain := chainAt s chainIndex
  let txStep : NetState × List InnerCmd :=
    if (notifRange s (NotificationsProtocol.transactions chainIndex)
        peerId SubstreamDirection.outbound).isEmpty then
      let newId := freshSubstreamId s
      ({ s with
         substreams := s.substreams ++
           [(newId,
             { connectionId
               protocol := Protocol.transactions chainIndex })]
         notificationSubstreams := s.notificationSubstreams ++
           [{ protocol := NotificationsProtocol.transactions chainIndex
              peer := peerId
              direction := SubstreamDirection.outbound
              state := NotificationsSubstreamState.pending
              substreamId := newId }] },
       [InnerCmd.openOutNotifications connectionId
         (ProtocolName.transactions chain.genesisHash chain.forkId)
         NotifPayload.emptyPayload newId])
    else (s, [])
  let s := txStep.1
  let gpStep : NetState × List InnerCmd :=
    if chain.grandpaProtocolConfig.isSome &&
        (notifRange s (NotificationsProtocol.grandpa chainIndex)
          peerId SubstreamDirection.outbound).isEmpty then
      let newId := freshSubstreamId s
      ({ s with
         substreams := s.substreams ++
           [(newId,
             { connectionId
               protocol := Protocol.grandpa chainIndex })]
         notificationSubstreams := s.notificationSubstreams ++
           [{ protocol := NotificationsProtocol.grandpa chainIndex
              peer := peerId
              direction := SubstreamDirection.outbound
              state := NotificationsSubstreamState.pending
              substreamId := newId }] },
       [InnerCmd.openOutNotifications connectionId
         (ProtocolName.grandpa chain.genesisHash chain.forkId)
         (NotifPayload.roleEncoding chain.role) newId])
    else (s, [])
  (gpStep.1, txStep.2 ++ gpStep.2)

/-- `service.rs` lines 1607-1728: the error arm of the Block-Announces
`NotificationsOutResult` handling. The source scans
`connections_by_peer_id` over the range `(peer,
ConnectionId::min_value())..=(peer, ConnectionId::min_value())`, i.e. it
only ever inspects a connection whose id is the minimal one (0), before
possibly reinserting into `connected_unopened_gossip_desired`. On a
decode error or genesis mismatch the Block-Announces substream itself is
closed and dropped; every outbound Transactions and Grandpa substream of
this chain and peer is closed on the inner collection (without being
removed from `notification_substreams_by_peer_id`, mirroring the
source). -/
def baErrBranch (s : NetState) (chainIndex peerId substreamId : Nat)
    (error : GossipConnectError) : NetState × List InnerCmd :=
  let reinsert :=
    (s.connectionsByPeerId.any fun e =>
      e.1 = peerId && e.2 = 0 &&
      (connState s e.2).established &&
      !(connState s e.2).shuttingDown) &&
    s.gossipDesiredPeersByChain.contains
      (chainIndex, GossipKind.consensusTransactions, peerId)
  let connectedUnopened' :=
    if reinsert then
      insertSet s.connectedUnopenedGossipDesired
        (peerId, chainIndex, GossipKind.consensusTransactions)
    else s.connectedUnopenedGossipDesired
  -- lines 1657-1661
  let openedUndesired' :=
    s.openedGossipUndesired.filter fun e =>
      e ≠ (chainIndex, peerId, GossipKind.consensusTransactions)
  -- lines 1663-1668
  let baStep : List (Nat × SubstreamInfo) × List InnerCmd :=
    match error with
    | GossipConnectError.handshakeDecode
    | GossipConnectError.genesisMismatch _ _ =>
      (s.substreams.filter fun e => e.1 ≠ substreamId,
       [InnerCmd.closeOutNotifications substreamId])
    | _ => (s.substreams, [])
  -- lines 1670-1718; none of the mutations above touches
  -- `notification_substreams_by_peer_id`, so these ranges read the set as
  -- it was when the arm was entered
  let txClose :=
    (notifRange s (NotificationsProtocol.transactions chainIndex)
      peerId SubstreamDirection.outbound).map
      fun e => InnerCmd.closeOutNotifications e.substreamId
  let gpClose :=
    (notifRange s (NotificationsProtocol.grandpa chainIndex)
      peerId SubstreamDirection.outbound).map
      fun e => InnerCmd.closeOutNotifications e.substreamId
  ({ s with
     connectedUnopenedGossipDesired := connectedUnopened'
     openedGossipUndesired := openedUndesired'
     substreams := baStep.1 },
   baStep.2 ++ txClose ++ gpClose)

/-- The `collection::Event::NotificationsOutResult` arm of
`ChainNetwork::next_event` (`service.rs` lines 1412-1730), for an outbound
Block-Announces substream. `result = none` embeds
`Err(NotificationsOutErr)`; `some bytes` embeds `Ok(handshake_bytes)`.
Returns the new state, the commands issued to the inner collection, and
the event returned to the API user. `none` embeds the branches the source
marks `unreachable!()` (unknown substream id, connection without a peer
id) and the non-Block-Announces protocols, which this fragment does not
model. -/
def notificationsOutResult (s : NetState) (substreamId : Nat)
    (result : Option RemoteBytes) :
    Option (NetState × List InnerCmd × Event) :=
  match (s.substreams.find? (fun e => e.1 = substreamId)).map (·.2) with
  | none => none
  | some substreamInfo =>
    -- `if result.is_ok() { get } else { remove }` (lines 1417-1424)
    let s : NetState :=
      if result.isSome then s
      else removeSubstreamEntry s substreamId
    let connectionId := substreamInfo.connectionId
    match (connState s connectionId).peerId with
    | none => none
    | some peerId =>
      match substreamInfo.protocol with
      | Protocol.blockAnnounces chainIndex =>
        -- remove the Pending entry (lines 1436-1443)
        let s : NetState :=
          removePendingBA s chainIndex peerId substreamId
        let localGenesis := (chainAt s chainIndex).genesisHash
        -- lines 1448-1471: decode and check the genesis hash
        let decoded : BlockAnnouncesHandshake ⊕ GossipConnectError :=
          match result with
          | some bytes =>
            match decodeBlockAnnouncesHandshake bytes with
            | some dh =>
                if dh.genesisHash = localGenesis then Sum.inl dh
                else Sum.inr
                  (GossipConnectError.genesisMismatch localGenesis
                    dh.genesisHash)
            | none => Sum.inr GossipConnectError.handshakeDecode
          | none => Sum.inr GossipConnectError.substream
        match decoded with
        | Sum.inl dh =>
          let r := baOkBranch s chainIndex peerId substreamId connectionId
          some (r.1, r.2,
            Event.gossipConnected peerId chainIndex
              GossipKind.consensusTransactions dh.role dh.bestNumber
              dh.bestHash)
        | Sum.inr error =>
          let r := baErrBranch s chainIndex peerId substreamId error
          some (r.1, r.2,
            Event.gossipOpenFailed peerId chainIndex
              GossipKind.consensusTransactions error)
      | _ => none

/-- All peers mentioned anywhere in the state; the domain over which the
desired-sets partition is checked. -/
def peersMentioned (s : NetState) : List Nat :=
  ((s.connectionsByPeerId.map (·.1)) ++
   (s.gossipDesiredPeers.map (·.1)) ++
   (s.notificationSubstreams.map (·.peer)) ++
   s.unconnectedDesired ++
   (s.connectedUnopenedGossipDesired.map (·.1)) ++
   (s.openedGossipUndesired.map (·.2.1))).dedup

/-- The desired-sets partition condition of the claim, for one desired
`(chain, peer, ConsensusTransactions)` triple: exactly one of
`unconnected_desired` (no healthy connection),
`connected_unopened_gossip_desired` (healthy connection, no outbound
Block-Announces substream), or no-entry (an outbound Block-Announces
substream attempt or link exists) reflects it. -/
def desiredTripleOk (s : NetState) (c p : Nat) : Bool :=
  let k := GossipKind.consensusTransactions
  let hasConn := hasHealthyConnection s p
  let hasBA :=
    !(notifRange s (NotificationsProtocol.blockAnnounces c) p
      SubstreamDirection.outbound).isEmpty
  let inU := s.unconnectedDesired.contains p
  let inC := s.connectedUnopenedGossipDesired.contains (p, c, k)
  (inU && !inC && !hasConn && !hasBA) ||
  (inC && !inU && hasConn && !hasBA) ||
  (!inU && !inC && hasBA)

/-- The partition condition for a triple that is not marked desired: it is
in `opened_gossip_undesired` if and only if an outbound Block-Announces
substream (pending or open) exists for it. -/
def undesiredTripleOk (s : NetState) (c p : Nat) : Bool :=
  let k := GossipKind.consensusTransactions
  let hasBA :=
    !(notifRange s (NotificationsProtocol.blockAnnounces c) p
      SubstreamDirection.outbound).isEmpty
  s.openedGossipUndesired.contains (c, p, k) = hasBA

/-- The desired-sets partition over every `(chain, peer)` pair mentioned
in the state. -/
def partitionOk (s : NetState) : Bool :=
  (List.range s.chains.length).all fun c =>
    (peersMentioned s).all fun p =>
      if s.gossipDesiredPeersByChain.contains
          (c, GossipKind.consensusTransactions, p)
      then desiredTripleOk s c p
      else undesiredTripleOk s c p

/-- The chain used by the concrete gossip scenarios: genesis hash `0x11`,
no fork id, Grandpa disabled. -/
def gossipChain : Chain :=
  { blockNumberBytes := 4, genesisHash := 0x11, forkId := none
    role := Role.light, bestHash := 0x11, bestNumber := 0
    grandpaProtocolConfig := none, allowInboundBlockRequests := false }

/-- Concrete state for the partition-violation scenario: peer `7` is
gossip-desired on chain `0`, reachable over the single healthy established
connection `1` (the connection id `0` was used by an earlier, now-removed
connection), and an outbound Block-Announces substream `5` is pending. The
desired triple is correctly reflected by the no-entry arm. -/
def c1PreState : NetState :=
  { chains := [gossipChain]
    connections :=
      [(1, { peerId := some 7, established := true, shuttingDown := false })]
    substreams :=
      [(5, { connectionId := 1, protocol := Protocol.blockAnnounces 0 })]
    connectionsByPeerId := [(7, 1)]
    notificationSubstreams :=
      [{ protocol := NotificationsProtocol.blockAnnounces 0
         peer := 7
         direction := SubstreamDirection.outbound
         state := NotificationsSubstreamState.pending
         substreamId := 5 }]
    gossipDesiredPeersByChain := [(0, GossipKind.consensusTransactions, 7)]
    gossipDesiredPeers := [(7, GossipKind.consensusTransactions, 0)]
    unconnectedDesired := []
    connectedUnopenedGossipDesired := []
    openedGossipUndesired := [] }

end Net

end Smoldot

namespace Smoldot
namespace Net

/-- Concrete state for the `gossip_open` scenarios: peer `7` has the
single healthy established connection `0`, is gossip-desired on chain `0`,
and a *pending inbound* Block-Announces substream `4` exists — the
situation after a `GossipInDesired` event was reported. -/
def c3State : NetState :=
  { chains := [gossipChain]
    connections :=
      [(0, { peerId := some 7, established := true, shuttingDown := false })]
    substreams :=
      [(4, { connectionId := 0, protocol := Protocol.blockAnnounces 0 })]
    connectionsByPeerId := [(7, 0)]
    notificationSubstreams :=
      [{ protocol := NotificationsProtocol.blockAnnounces 0
         peer := 7
         direction := SubstreamDirection.inbound
         state := NotificationsSubstreamState.pending
         substreamId := 4 }]
    gossipDesiredPeersByChain := [(0, GossipKind.consensusTransactions, 7)]
    gossipDesiredPeers := [(7, GossipKind.consensusTransactions, 0)]
    unconnectedDesired := []
    connectedUnopenedGossipDesired := []
    openedGossipUndesired := [] }

/-- Concrete state for the `gossip_open` success witness: peer `7` with a
healthy established connection `0`, gossip-desired on chain `0`, no
substream of any kind. -/
def c3OpenState : NetState :=
  { chains := [gossipChain]
    connections :=
      [(0, { peerId := some 7, established := true, shuttingDown := false })]
    substreams := []
    connectionsByPeerId := [(7, 0)]
    notificationSubstreams := []
    gossipDesiredPeersByChain := [(0, GossipKind.consensusTransactions, 7)]
    gossipDesiredPeers := [(7, GossipKind.consensusTransactions, 0)]
    unconnectedDesired := []
    connectedUnopenedGossipDesired := []
    openedGossipUndesired := [] }

end Net
end Smoldot

namespace Smoldot
namespace Net

/-- The state produced by the successful `gossip_open` call of the
witness scenario. -/
def c3PostState : NetState :=
  { c3OpenState with
    substreams :=
      [(1, { connectionId := 0, protocol := Protocol.blockAnnounces 0 })]
    notificationSubstreams := [pendingBATuple 0 7 1] }

/-- The commands issued by the successful `gossip_open` call of the
witness scenario. -/
def c3OpenCmds : List InnerCmd :=
  [InnerCmd.openOutNotifications 0
    (ProtocolName.blockAnnounces 0x11 none)
    (NotifPayload.blockAnnouncesHandshake 0x11 0 Role.light 0x11) 1]

end Net
end Smoldot

namespace Smoldot

namespace RtSvc

/-- `PinnedBlock` (`runtime_service.rs`). The `runtime` field is the
identity of the shared `Arc<Runtime>`. -/
structure PinnedBlock where
  runtime : Nat
  stateTrieRootHash : Nat
  blockNumber : Nat
  blockIgnoresLimit : Bool
deriving DecidableEq, Repr

/-- One entry of `all_blocks_subscriptions`: the channel sender is
abstracted to whether its next `try_send` succeeds, alongside
`finalized_pinned_remaining`. -/
structure Subscription where
  sendOk : Bool
  finalizedPinnedRemaining : Nat
deriving DecidableEq, Repr

/-- The `FinalizedBlockRuntimeKnown` sub-state that pin accounting reads
and writes: `all_blocks_subscriptions` keyed by subscription id and
`pinned_blocks` keyed by `(subscription_id, block_hash)`. -/
structure SubsState where
  subscriptions : List (Nat × Subscription)
  pinnedBlocks : List ((Nat × Nat) × PinnedBlock)
deriving DecidableEq, Repr

/-- `runtime_service.rs` lines 354-357: `subscribe_all` registers the new
subscription with `finalized_pinned_remaining = max_pinned_blocks - 1`. -/
def subscribeAllInsert (st : SubsState) (subscriptionId : Nat)
    (sendOk : Bool) (maxPinnedBlocks : Nat) : SubsState :=
  { st with subscriptions := st.subscriptions ++
      [(subscriptionId,
        { sendOk, finalizedPinnedRemaining := maxPinnedBlocks - 1 })] }

/-- The per-subscription step of the `Finalized` arm
(`runtime_service.rs` lines 1737-1752): drop the subscription (`none`)
when the remaining budget is below `pruned + 1` or the channel send
fails; otherwise debit the budget. -/
def processFinalizedSub (countLimit : Nat) (sub : Subscription) :
    Option Subscription :=
  if sub.finalizedPinnedRemaining < countLimit then none
  else if sub.sendOk = false then none
  else some { sub with finalizedPinnedRemaining :=
      sub.finalizedPinnedRemaining - countLimit }

/-- The `Finalized` arm of `advance_and_notify_subscribers`
(`runtime_service.rs` lines 1730-1775): every subscription is either
delivered the notification — debiting `finalized_pinned_remaining` by
`pruned.len() + 1` and clearing `block_ignores_limit` on its pinned
entries for the finalized and pruned blocks — or dropped, removing the
subscription and all of its pinned entries. Returns the new state and the
ids of the subscriptions the notification was delivered to. -/
def advanceFinalized (st : SubsState) (finalizedHash : Nat)
    (prunedBlocks : List Nat) : SubsState × List Nat :=
  let countLimit := prunedBlocks.length + 1
  let results := st.subscriptions.map
    fun e => (e.1, processFinalizedSub countLimit e.2)
  let delivered := (results.filter (fun e => e.2.isSome)).map (·.1)
  let toRemove := (results.filter (fun e => e.2.isNone)).map (·.1)
  let subscriptions' := results.filterMap
    fun e => e.2.map (fun sub => (e.1, sub))
  let pinned₁ := st.pinnedBlocks.map
    fun e =>
      if delivered.contains e.1.1 &&
          (finalizedHash :: prunedBlocks).contains e.1.2 then
        (e.1, { e.2 with blockIgnoresLimit := false })
      else e
  let pinned₂ := pinned₁.filter fun e => !toRemove.contains e.1.1
  ({ subscriptions := subscriptions', pinnedBlocks := pinned₂ }, delivered)

/-- `RuntimeService::unpin_block_inner` (`runtime_service.rs` lines
391-428). `phaseKnown` embeds whether `guarded.tree` is
`FinalizedBlockRuntimeKnown` (otherwise the whole body is skipped).
Returns `none` for the panicking paths: the explicit `panic!` when the
block was never pinned or already unpinned while the subscription is
still registered, and the `.unwrap()` on the subscription when crediting
the budget. The `runtimes` weak-registry reaping on the success path
touches no state embedded here. -/
def unpinBlockInner (phaseKnown : Bool) (st : SubsState)
    (subscriptionId blockHash : Nat) : Option SubsState :=
  if phaseKnown = false then some st
  else
    match st.pinnedBlocks.find?
        (fun e => e.1 = (subscriptionId, blockHash)) with
    | none =>
        if (st.subscriptions.find? (fun e => e.1 = subscriptionId)).isSome
        then none
        else some st
    | some entry =>
        let remaining := st.pinnedBlocks.filter
          fun e => e.1 ≠ (subscriptionId, blockHash)
        let st : SubsState := { st with pinnedBlocks := remaining }
        if entry.2.blockIgnoresLimit = false then
          match st.subscriptions.find? (fun e => e.1 = subscriptionId) with
          | none => none
          | some _ =>
              let credited := st.subscriptions.map
                fun e =>
                  if e.1 = subscriptionId then
                    (e.1, { e.2 with finalizedPinnedRemaining :=
                        e.2.finalizedPinnedRemaining + 1 })
                  else e
              some { st with subscriptions := credited }
        else some st

/-- Lookup of a subscription's record. -/
def lookupSub (st : SubsState) (subscriptionId : Nat) : Option Subscription :=
  (st.subscriptions.find? (fun e => e.1 = subscriptionId)).map (·.2)

/-- One node of the runtime service's async tree, in input ancestry order
(parents strictly before children). Modelled from the spec: the
`async_tree` structure is not part of the source tree; per spec §4.4 each
node holds the block and an async-op slot, `runtimeKnown` embedding
`async_op_user_data.is_some()`. `headerParentHash` is the parent-hash
field of the block's SCALE header; `parent` is the tree parent (`none`
when the parent is the output-finalized block). -/
structure TreeBlock where
  hash : Nat
  headerParentHash : Nat
  parent : Option Nat
  runtimeKnown : Bool
deriving DecidableEq, Repr

/-- The tree data read by `subscribe_all` and the `Block` arm of
`advance_and_notify_subscribers`. -/
structure RTree where
  finalizedHash : Nat
  blocks : List TreeBlock
deriving DecidableEq, Repr

/-- `runtime_service.rs` lines 293-296: the `parent_runtime` lookup of
the snapshot loop, `tree.parent(block.id).map_or(output-finalized
runtime, |parent_idx| tree.block_async_user_data(parent_idx).unwrap())`.
The output-finalized runtime always exists (the loop only runs in the
`FinalizedBlockRuntimeKnown` phase); the `.unwrap()` on a tree parent
succeeds iff that parent's runtime is known. -/
def parentRuntimeLookupOk (t : RTree) (b : TreeBlock) : Bool :=
  match b.parent with
  | none => true
  | some idx =>
      (t.blocks.getD idx
        { hash := 0, headerParentHash := 0, parent := none
          runtimeKnown := false }).runtimeKnown

/-- `runtime_service.rs` lines 284-344: the non-finalized snapshot built
by `subscribe_all`. Blocks whose runtime is not known yet are skipped
(`None => continue`, lines 287-289); for each reported block the loop
first resolves the parent runtime (lines 293-296), panicking — `none`
here — when the block's tree parent's runtime is unknown; then the
`parent_hash` field of the notification is read from the block's own
SCALE header (lines 298-303), not derived from the tree. Returns the
`(block_hash, parent_hash)` pairs in ancestry order, or `none` when the
loop panics before `subscribe_all` returns. (`parent_runtime` itself only
feeds the `new_runtime` pointer comparison, not embedded here.) -/
def snapshotBlocks (t : RTree) : Option (List (Nat × Nat)) :=
  let reported := t.blocks.filter fun b => b.runtimeKnown
  if reported.all (fun b => parentRuntimeLookupOk t b) then
    some (reported.map fun b => (b.hash, b.headerParentHash))
  else none

/-- The `debug_assert!` of `runtime_service.rs` lines 304-309: every
reported block's `parent_hash` equals the finalized hash or the hash of a
block in the tree whose runtime is known. -/
def snapshotDebugAssert (t : RTree) : Bool :=
  (t.blocks.filter (fun b => b.runtimeKnown)).all fun b =>
    b.headerParentHash = t.finalizedHash ||
    t.blocks.any fun b2 =>
      b.headerParentHash = b2.hash && b2.runtimeKnown

/-- `runtime_service.rs` lines 1806-1809: the `parent_hash` of a `Block`
notification delivered after subscription — the hash of the tree parent,
or the finalized block's hash when the parent is the finalized block. -/
def blockNotifParentHash (t : RTree) (blockIndex : Nat) : Nat :=
  match (t.blocks.getD blockIndex
      { hash := 0, headerParentHash := 0, parent := none
        runtimeKnown := false }).parent with
  | none => t.finalizedHash
  | some idx =>
      (t.blocks.getD idx
        { hash := 0, headerParentHash := 0, parent := none
          runtimeKnown := false }).hash

/-- The claim's property over a snapshot: scanning the reported blocks in
order, every `parent_hash` refers to the initial finalized block or to a
block reported earlier. -/
def parentsPreviouslyReported : List Nat → List (Nat × Nat) → Bool
  | _, [] => true
  | seen, e :: rest =>
      seen.contains e.2 && parentsPreviouslyReported (e.1 :: seen) rest

/-- The failing tree for the snapshot `parent_hash` claim: finalized
block `1`; block `3`, a tree child of the finalized block with its
runtime known, whose header parent-hash field is `5`. The tree parent and
the header field can differ because the runtime service inserts each
block under the `parent_hash` of its sync-service notification
(`runtime_service.rs` lines 1301-1316, 1435-1448), and for parachains
that notification field is tree-derived while the embedded header is
unverified and may name any block (`sync_service.rs` lines 1149-1162).
The parent-runtime lookup takes the `map_or` fallback (tree parent is the
finalized block), so `subscribe_all` does not panic here and returns the
snapshot. -/
def c5Tree : RTree :=
  { finalizedHash := 1
    blocks :=
      [{ hash := 3, headerParentHash := 5, parent := none
         runtimeKnown := true }] }

/-- A second tree, at which `subscribe_all` itself panics: finalized block
`1`; block `2` (child of the finalized block) whose runtime download has
not finished; block `3` (child of block `2`) whose runtime is already
known — reachable because the two downloads run concurrently and can
finish in either order (spec §4.4: at most two concurrent downloads,
started oldest-first). Block `3` is reported, so the `.unwrap()` of
`runtime_service.rs` lines 293-296 hits block `2`'s absent runtime. -/
def c5PanicTree : RTree :=
  { finalizedHash := 1
    blocks :=
      [{ hash := 2, headerParentHash := 1, parent := none
         runtimeKnown := false },
       { hash := 3, headerParentHash := 2, parent := some 0
         runtimeKnown := true }] }

end RtSvc

end Smoldot

namespace Smoldot
namespace RtSvc

/-- Concrete state for the pin-accounting witness: subscription `1` has
budget `3` and a working channel, subscription `2` has budget `1`;
pinned entries for blocks `9` and `7` under subscription `1` and block
`9` under subscription `2`, all still counted as non-finalized. -/
def c4State : SubsState :=
  { subscriptions := [(1, { sendOk := true, finalizedPinnedRemaining := 3 }),
                      (2, { sendOk := true, finalizedPinnedRemaining := 1 })]
    pinnedBlocks :=
      [((1, 9), { runtime := 0, stateTrieRootHash := 0, blockNumber := 4
                  blockIgnoresLimit := true }),
       ((1, 7), { runtime := 0, stateTrieRootHash := 0, blockNumber := 3
                  blockIgnoresLimit := true }),
       ((2, 9), { runtime := 0, stateTrieRootHash := 0, blockNumber := 4
                  blockIgnoresLimit := true })] }

/-- Concrete state for the unpin witness: subscription `1` with budget
`2` and one pinned entry for block `9` that no longer ignores the limit. -/
def c10State : SubsState :=
  { subscriptions := [(1, { sendOk := true, finalizedPinnedRemaining := 2 })]
    pinnedBlocks :=
      [((1, 9), { runtime := 0, stateTrieRootHash := 0, blockNumber := 5
                  blockIgnoresLimit := false })] }

end RtSvc
end Smoldot

namespace Smoldot

namespace Compile

/-- The compilation errors of `HostVmPrototype::new` that
`from_storage` distinguishes: an unresolved host-function import
(`NewErr::VirtualMachine(vm::NewErr::UnresolvedFunctionImport)`), or any
other error (opaque to this fragment). -/
inductive NewErr where
  | unresolvedFunctionImport (function moduleName : String)
  | other (code : Nat)
deriving DecidableEq, Repr

/-- `RuntimeError` (`runtime_service.rs`). -/
inductive RuntimeError where
  | codeNotFound
  | invalidHeapPages
  | build (error : NewErr)
deriving DecidableEq, Repr

/-- `SuccessfulRuntime`, reduced to the data the claims observe: the
runtime spec extracted from the compiled virtual machine. -/
structure SuccessfulRuntime where
  runtimeSpec : Nat
deriving DecidableEq, Repr

/-- Modelled from the spec: the behaviour of `HostVmPrototype::new` for
the `:code` and `:heappages` at hand, as a function of
`allow_unresolved_imports` (the executor lives outside the source tree). -/
structure CompileEnv where
  attempt : Bool → NewErr ⊕ Nat

/-- `SuccessfulRuntime::from_storage` (`runtime_service.rs` lines
2184-2252). `heapPagesOk` embeds the outcome of
`executor::storage_heap_pages_to_value`. Besides the result, returns the
list of `allow_unresolved_imports` flags attempted, in order, and whether
the unresolved-import warning was logged. `none` embeds the
`unreachable!()` branch (the second attempt failing again with an
unresolved import). -/
def fromStorage (code : Option Nat) (heapPagesOk : Bool)
    (env : CompileEnv) :
    Option ((RuntimeError ⊕ SuccessfulRuntime) × List Bool × Bool) :=
  match code with
  | none => some (Sum.inl RuntimeError.codeNotFound, [], false)
  | some _ =>
    if heapPagesOk = false then
      some (Sum.inl RuntimeError.invalidHeapPages, [], false)
    else
      match env.attempt false with
      | Sum.inr spec =>
          some (Sum.inr { runtimeSpec := spec }, [false], false)
      | Sum.inl (NewErr.unresolvedFunctionImport _ _) =>
        match env.attempt true with
        | Sum.inr spec =>
            some (Sum.inr { runtimeSpec := spec }, [false, true], true)
        | Sum.inl (NewErr.unresolvedFunctionImport _ _) => none
        | Sum.inl error =>
            some (Sum.inl (RuntimeError.build error), [false, true], false)
      | Sum.inl error =>
          some (Sum.inl (RuntimeError.build error), [false], false)

/-- The runtimes registry as read by the deduplication step: for each
live runtime, its identity and its `(runtime_code, heap_pages)` pair. -/
def findExistingRuntime (runtimes : List (Nat × Option Nat × Option Nat))
    (storageCode storageHeapPages : Option Nat) : Option Nat :=
  (runtimes.find? (fun r =>
    r.2.1 = storageCode && r.2.2 = storageHeapPages)).map (·.1)

/-- `Background::runtime_download_finished` (`runtime_service.rs` lines
1627-1694), restricted to runtime selection: reuse an existing live
runtime with identical `code` and `heappages` (no compilation), otherwise
compile via `from_storage`. -/
def runtimeDownloadFinished (runtimes : List (Nat × Option Nat × Option Nat))
    (storageCode storageHeapPages : Option Nat) (heapPagesOk : Bool)
    (env : CompileEnv) :
    Option (Nat ⊕ ((RuntimeError ⊕ SuccessfulRuntime) × List Bool × Bool)) :=
  match findExistingRuntime runtimes storageCode storageHeapPages with
  | some existing => some (Sum.inl existing)
  | none => (fromStorage storageCode heapPagesOk env).map Sum.inr

end Compile

end Smoldot

namespace Smoldot
namespace Compile

/-- The compile environment of scenario S4: compiling with
`allow_unresolved_imports = false` fails on the unresolved import
`env`:`foo`; the relaxed attempt succeeds with spec version `42`. -/
def s4Env : CompileEnv :=
  { attempt := fun allow =>
      if allow then Sum.inr 42
      else Sum.inl (NewErr.unresolvedFunctionImport "foo" "env") }

end Compile
end Smoldot

namespace Smoldot

namespace Host

/-- The host calls the Wasm VM can yield to `Inner::run`
(`read_only_runtime_host.rs` lines 375-512). Storage operations carry
whether they target the main trie or a child trie; `logEmit` carries the
chunks the `Display` implementation feeds to the writer; `forbidden`
stands for every host call outside the supported set. For the operations
the wrapper handles internally, the resumption value is implicit in
continuing with the rest of the script. -/
inductive HostOp where
  | storageGetMain (key : Nat)
  | storageGetChild
  | nextKeyMain (key : Nat)
  | nextKeyChild
  | nextChildTrie
  | storageRootMain
  | storageRootChild
  | signatureVerification
  | callRuntimeVersion (compileOk : Bool)
  | getMaxLogLevel
  | logEmit (chunks : List String)
  | forbidden
deriving DecidableEq, Repr

/-- How the VM execution itself ends, after the host calls of the script:
`HostVm::Finished` with a value, or `HostVm::Error`. -/
inductive Terminal where
  | finished (value : Nat)
  | trapped
deriving DecidableEq, Repr

/-- `ErrorDetail` (`read_only_runtime_host.rs`). -/
inductive ErrorDetail where
  | wasmVm (logs : String)
  | logsTooLong
  | forbiddenHostCall
deriving DecidableEq, Repr

/-- The states in which `Inner::run` hands control back to the caller
(`RuntimeHostVm` minus `Finished`). -/
inductive Interrupt where
  | storageGet (key : Nat)
  | nextKey (key : Nat)
  | storageRoot
  | signatureVerification
deriving DecidableEq, Repr

/-- The outcome of `Inner::run`: finished (`Ok(Success{value, logs})` or
`Err(Error{detail})`), or interrupted with the remaining script and the
logs accumulated so far. -/
inductive RunResult where
  | finished (r : (Nat × String) ⊕ ErrorDetail)
  | interrupted (i : Interrupt) (rest : List HostOp) (t : Terminal)
      (logs : String)
deriving DecidableEq, Repr

/-- `WriterWithMax::write_str` (`read_only_runtime_host.rs` lines
479-485): refuse the write when it would take the accumulated length to
`1 MiB` or beyond. -/
def writeStr (logs s : String) : Option String :=
  if 1024 * 1024 ≤ logs.length + s.length then none
  else some (logs ++ s)

/-- `fmt::write` feeding the chunks of one `LogEmit` display to
`WriterWithMax`, stopping at the first refused write. -/
def writeChunks : String → List String → Option String
  | logs, [] => some logs
  | logs, s :: rest =>
    match writeStr logs s with
    | none => none
    | some logs' => writeChunks logs' rest

/-- `Inner::run` (`read_only_runtime_host.rs` lines 375-514) over a
script of host calls followed by a terminal VM state: main-trie storage
operations and signature verification interrupt execution and hand
control back; child-trie operations resume with `None` and continue;
`CallRuntimeVersion` and `GetMaxLogLevel` are answered internally;
`LogEmit` appends to the log accumulator, failing the call with
`LogsTooLong` when the writer refuses; any other host call fails the
call with `ForbiddenHostCall`. -/
def run : List HostOp → Terminal → String → RunResult
  | [], Terminal.finished v, logs => RunResult.finished (Sum.inl (v, logs))
  | [], Terminal.trapped, logs =>
      RunResult.finished (Sum.inr (ErrorDetail.wasmVm logs))
  | op :: rest, t, logs =>
    match op with
    | HostOp.storageGetMain k =>
        RunResult.interrupted (Interrupt.storageGet k) rest t logs
    | HostOp.storageGetChild => run rest t logs
    | HostOp.nextKeyMain k =>
        RunResult.interrupted (Interrupt.nextKey k) rest t logs
    | HostOp.nextKeyChild => run rest t logs
    | HostOp.nextChildTrie => run rest t logs
    | HostOp.storageRootMain =>
        RunResult.interrupted Interrupt.storageRoot rest t logs
    | HostOp.storageRootChild => run rest t logs
    | HostOp.signatureVerification =>
        RunResult.interrupted Interrupt.signatureVerification rest t logs
    | HostOp.callRuntimeVersion _ => run rest t logs
    | HostOp.getMaxLogLevel => run rest t logs
    | HostOp.logEmit chunks =>
      match writeChunks logs chunks with
      | some logs' => run rest t logs'
      | none => RunResult.finished (Sum.inr ErrorDetail.logsTooLong)
    | HostOp.forbidden =>
        RunResult.finished (Sum.inr ErrorDetail.forbiddenHostCall)

end Host

end Smoldot

namespace Smoldot
namespace Host

/-- A log chunk of exactly 1 MiB, used to exercise the log cap. -/
def bigChunk : String := String.mk (List.replicate (1024 * 1024) 'a')

end Host
end Smoldot

namespace Smoldot

namespace Driver

/-- The outcome of the `or`-race awaited at the bottom of the driver loop
(`WhatHappened` in `network_service/tasks.rs`). -/
inductive Wake where
  | coordinatorMessage
  | coordinatorDead
  | socketEvent
  | messageSent
deriving DecidableEq, Repr

/-- Observable actions of one driver iteration, in the order they
happen: `read_write` on the socket through the connection state machine,
`pull_message_to_coordinator`, starting a send to the coordinator
(`message_sending = Some(..)`), injecting a coordinator message into the
state machine, and completion of an in-flight send
(`message_sending = None` after `WhatHappened::MessageSent`). -/
inductive Ev where
  | processedIO
  | pulledMessage
  | startedSend
  | injectedCoordinatorMessage
  | sendCompleted
deriving DecidableEq, Repr

/-- The bottom half of the loop: handle the winning future. A future that
the code replaces with `pending()` (socket wait while `message_sending`
is `Some`, send completion while it is `None`) can never win the race;
such a wake is embedded as a spurious no-op. Returns `none` when the
driver returns (coordinator dead). -/
def handleWake (sending : Bool) (evs : List Ev) :
    Wake → Option Bool × List Ev
  | Wake.coordinatorMessage =>
      (some sending, evs ++ [Ev.injectedCoordinatorMessage])
  | Wake.coordinatorDead => (none, evs)
  | Wake.socketEvent => (some sending, evs)
  | Wake.messageSent =>
      if sending then (some false, evs ++ [Ev.sendCompleted])
      else (some sending, evs)

/-- One iteration of the driver loop
(`light-base/src/network_service/tasks.rs` lines 77-200; the full-node
`connection_task` at `full-node/src/network_service/tasks.rs` lines
87-200 has the same structure). When no send is in flight, the socket is
processed through the state machine and a message is pulled — `pull` is
`none` when `pull_message_to_coordinator` returns no task update (the
driver exits), `some m` when the task continues with (`m = true`) or
without (`m = false`) a message to send. While a send is in flight
(`sending = true`), neither happens. -/
def loopIter (sending : Bool) (pull : Option Bool) (wake : Wake) :
    Option Bool × List Ev :=
  if sending then handleWake sending [] wake
  else
    match pull with
    | none => (none, [Ev.processedIO, Ev.pulledMessage])
    | some true =>
        handleWake true [Ev.processedIO, Ev.pulledMessage, Ev.startedSend]
          wake
    | some false =>
        handleWake false [Ev.processedIO, Ev.pulledMessage] wake

/-- The driver run over a sequence of per-iteration inputs, producing the
trace of observable actions. -/
def runDriver : Bool → List (Option Bool × Wake) → List Ev
  | _, [] => []
  | sending, input :: rest =>
    match loopIter sending input.1 input.2 with
    | (none, evs) => evs
    | (some sending', evs) => evs ++ runDriver sending' rest

/-- The single-in-flight-send discipline over a trace, tracking whether a
send is outstanding: `startedSend` is only legal when no send is
outstanding, and while one is outstanding neither socket I/O is processed
nor a further message pulled until `sendCompleted`. -/
def traceOk : Bool → List Ev → Bool
  | _, [] => true
  | f, Ev.startedSend :: r => !f && traceOk true r
  | _, Ev.sendCompleted :: r => traceOk false r
  | f, Ev.processedIO :: r => !f && traceOk f r
  | f, Ev.pulledMessage :: r => !f && traceOk f r
  | f, Ev.injectedCoordinatorMessage :: r => traceOk f r

end Driver

end Smoldot

/-- C6: `add_chain` returns `Err(Duplicate{existing})` naming the previously
registered chain whenever a chain with the same `(genesis_hash, fork_id)`
pair is already registered, and leaves the set of registered chains
unchanged in that case; calling `add_chain` twice with the same genesis
hash and no fork id makes the second call return `Duplicate` whose
`existing` equals the `ChainId` returned by the first call. -/
theorem addChain_duplicate_detection
    (s : Smoldot.Net.ChainsState) (config : Smoldot.Net.ChainConfig)
    (existing : Nat)
    (hreg : Smoldot.Net.protocolInfoLookup s.chainsByProtocolInfo
        (config.genesisHash, config.forkId) = some existing) :
    Smoldot.Net.addChain s config
        = (s, Sum.inl (Smoldot.Net.AddChainError.duplicate existing)) ∧
    (∀ (s₀ : Smoldot.Net.ChainsState) (c₁ c₂ : Smoldot.Net.ChainConfig)
        (s₁ : Smoldot.Net.ChainsState) (id₁ : Nat),
      c₂.genesisHash = c₁.genesisHash → c₂.forkId = c₁.forkId →
      Smoldot.Net.addChain s₀ c₁ = (s₁, Sum.inr id₁) →
      Smoldot.Net.addChain s₁ c₂
        = (s₁, Sum.inl (Smoldot.Net.AddChainError.duplicate id₁))) := by
  constructor
  · unfold Smoldot.Net.addChain
    rw [hreg]
  · intro s₀ c₁ c₂ s₁ id₁ hg hf hcall
    unfold Smoldot.Net.addChain at hcall ⊢
    rcases hlook : Smoldot.Net.protocolInfoLookup s₀.chainsByProtocolInfo
        (c₁.genesisHash, c₁.forkId) with _ | existing₁
    · rw [hlook] at hcall
      simp only at hcall
      obtain ⟨hs₁, hid₁⟩ := Prod.mk.injEq .. ▸ hcall
      have hid₁' : id₁ = s₀.chains.length := by
        cases hcall
        rfl
      cases hcall
      rw [hg, hf]
      simp [Smoldot.Net.protocolInfoLookup]
    · rw [hlook] at hcall
      simp at hcall

/-- Witness for C6: the literal S1 scenario — two `add_chain` calls with
genesis `0x11…` and no fork id, starting from the empty network. The first
returns `ChainId(0)`; the second returns `Duplicate{existing = ChainId(0)}`. -/
theorem addChain_duplicate_detection_witness :
    Smoldot.Net.protocolInfoLookup
        (Smoldot.Net.addChain ⟨[], []⟩ Smoldot.Net.s1Config).1.chainsByProtocolInfo
        (Smoldot.Net.s1Config.genesisHash, Smoldot.Net.s1Config.forkId) = some 0 ∧
    Smoldot.Net.addChain (Smoldot.Net.addChain ⟨[], []⟩ Smoldot.Net.s1Config).1
        Smoldot.Net.s1Config
      = ((Smoldot.Net.addChain ⟨[], []⟩ Smoldot.Net.s1Config).1,
         Sum.inl (Smoldot.Net.AddChainError.duplicate 0)) :=
  ⟨by decide,
   (addChain_duplicate_detection
      (Smoldot.Net.addChain ⟨[], []⟩ Smoldot.Net.s1Config).1
      Smoldot.Net.s1Config 0 (by decide)).1⟩

/-- C1: the desired-sets partition does NOT hold after every event: after a
`GossipOpenFailed` (here a genesis mismatch) for a desired peer that still
has a healthy established connection — whose `ConnectionId` is not the
minimal id `0`, because the scan of `connections_by_peer_id` in the error
branch uses the range `(peer, ConnectionId::min_value())..=(peer,
ConnectionId::min_value())` — the desired triple `(chain 0, peer 7,
ConsensusTransactions)` is reflected in none of `unconnected_desired`,
`connected_unopened_gossip_desired`, or no-entry. The partition holds
before the event and is violated after it, while the peer still has a
healthy established connection. -/
theorem gossipOpenFailed_partition_code_bug :
    Smoldot.Net.partitionOk Smoldot.Net.c1PreState = true ∧
    (Smoldot.Net.notificationsOutResult Smoldot.Net.c1PreState 5
        (some (Smoldot.Net.RemoteBytes.wellFormed
          ⟨Smoldot.Net.Role.full, 9, 8, 0x22⟩))).map
        (fun r =>
          (Smoldot.Net.partitionOk r.1,
           Smoldot.Net.hasHealthyConnection r.1 7,
           r.2.2)) =
      some (false, true,
        Smoldot.Net.Event.gossipOpenFailed 7 0
          Smoldot.Net.GossipKind.consensusTransactions
          (Smoldot.Net.GossipConnectError.genesisMismatch 0x11 0x22)) := by
  decide
namespace Smoldot
namespace Net

theorem nor_ok_eq (s : NetState) (sid connId c p : Nat)
    (hsub : (s.substreams.find? (fun e => e.1 = sid)).map (·.2) =
      some { connectionId := connId, protocol := Protocol.blockAnnounces c })
    (hpeer : (connState s connId).peerId = some p)
    (dh : BlockAnnouncesHandshake)
    (hg : dh.genesisHash = (chainAt s c).genesisHash) :
    notificationsOutResult s sid (some (RemoteBytes.wellFormed dh)) =
      some ((baOkBranch (removePendingBA s c p sid) c p sid connId).1,
            (baOkBranch (removePendingBA s c p sid) c p sid connId).2,
            Event.gossipConnected p c GossipKind.consensusTransactions
              dh.role dh.bestNumber dh.bestHash) := by
  unfold notificationsOutResult
  rw [hsub]
  have hg' : dh.genesisHash = (chainAt (removePendingBA s c p sid) c).genesisHash := hg
  simp only [Option.isSome_some, if_true, hpeer, decodeBlockAnnouncesHandshake, hg', if_pos]

theorem nor_mismatch_eq (s : NetState) (sid connId c p : Nat)
    (hsub : (s.substreams.find? (fun e => e.1 = sid)).map (·.2) =
      some { connectionId := connId, protocol := Protocol.blockAnnounces c })
    (hpeer : (connState s connId).peerId = some p)
    (dh : BlockAnnouncesHandshake)
    (hg : dh.genesisHash ≠ (chainAt s c).genesisHash) :
    notificationsOutResult s sid (some (RemoteBytes.wellFormed dh)) =
      some ((baErrBranch (removePendingBA s c p sid) c p sid
              (GossipConnectError.genesisMismatch (chainAt s c).genesisHash
                dh.genesisHash)).1,
            (baErrBranch (removePendingBA s c p sid) c p sid
              (GossipConnectError.genesisMismatch (chainAt s c).genesisHash
                dh.genesisHash)).2,
            Event.gossipOpenFailed p c GossipKind.consensusTransactions
              (GossipConnectError.genesisMismatch (chainAt s c).genesisHash
                dh.genesisHash)) := by
  unfold notificationsOutResult
  rw [hsub]
  have hg' : ¬ dh.genesisHash = (chainAt (removePendingBA s c p sid) c).genesisHash := hg
  simp only [Option.isSome_some, if_true, hpeer, decodeBlockAnnouncesHandshake,
    if_neg hg']
  rfl

theorem nor_malformed_eq (s : NetState) (sid connId c p : Nat)
    (hsub : (s.substreams.find? (fun e => e.1 = sid)).map (·.2) =
      some { connectionId := connId, protocol := Protocol.blockAnnounces c })
    (hpeer : (connState s connId).peerId = some p) :
    notificationsOutResult s sid (some RemoteBytes.malformed) =
      some ((baErrBranch (removePendingBA s c p sid) c p sid
              GossipConnectError.handshakeDecode).1,
            (baErrBranch (removePendingBA s c p sid) c p sid
              GossipConnectError.handshakeDecode).2,
            Event.gossipOpenFailed p c GossipKind.consensusTransactions
              GossipConnectError.handshakeDecode) := by
  unfold notificationsOutResult
  rw [hsub]
  simp only [Option.isSome_some, if_true, hpeer, decodeBlockAnnouncesHandshake]

theorem nor_substream_err_eq (s : NetState) (sid connId c p : Nat)
    (hsub : (s.substreams.find? (fun e => e.1 = sid)).map (·.2) =
      some { connectionId := connId, protocol := Protocol.blockAnnounces c })
    (hpeer : (connState s connId).peerId = some p) :
    notificationsOutResult s sid none =
      some ((baErrBranch
              (removePendingBA (removeSubstreamEntry s sid) c p sid) c p sid
              GossipConnectError.substream).1,
            (baErrBranch
              (removePendingBA (removeSubstreamEntry s sid) c p sid) c p sid
              GossipConnectError.substream).2,
            Event.gossipOpenFailed p c GossipKind.consensusTransactions
              GossipConnectError.substream) := by
  unfold notificationsOutResult
  rw [hsub]
  have hpeer' : (connState (removeSubstreamEntry s sid) connId).peerId =
      some p := hpeer
  simp only [Option.isSome_none, Bool.false_eq_true, if_false, hpeer']

theorem removePendingBA_not_mem (s : NetState) (c p sid : Nat) :
    pendingBATuple c p sid ∉ (removePendingBA s c p sid).notificationSubstreams := by
  simp [removePendingBA, List.mem_filter]

theorem baOkBranch_mem_open (s : NetState) (c p sid connId : Nat) :
    openBATuple c p sid ∈
      (baOkBranch s c p sid connId).1.notificationSubstreams := by
  unfold baOkBranch
  dsimp only
  split <;> split <;> simp [List.mem_append]

theorem baOkBranch_not_mem_pending (s : NetState) (c p sid connId : Nat)
    (h : pendingBATuple c p sid ∉ s.notificationSubstreams) :
    pendingBATuple c p sid ∉
      (baOkBranch s c p sid connId).1.notificationSubstreams := by
  unfold baOkBranch
  dsimp only
  split <;> split <;>
    simp_all [List.mem_append, pendingBATuple, openBATuple]

theorem baErrBranch_mem_close_ba (s : NetState) (c p sid lg rg : Nat) :
    InnerCmd.closeOutNotifications sid ∈
      (baErrBranch s c p sid
        (GossipConnectError.genesisMismatch lg rg)).2 := by
  simp [baErrBranch]

theorem baErrBranch_mem_close_txgp (s : NetState) (c p sid : Nat)
    (err : GossipConnectError) (e : NotifEntry)
    (he : e ∈ s.notificationSubstreams)
    (hprot : e.protocol = NotificationsProtocol.transactions c ∨
      e.protocol = NotificationsProtocol.grandpa c)
    (hp : e.peer = p) (hd : e.direction = SubstreamDirection.outbound) :
    InnerCmd.closeOutNotifications e.substreamId ∈
      (baErrBranch s c p sid err).2 := by
  unfold baErrBranch
  dsimp only
  rcases hprot with h | h <;>
    simp [notifRange, List.mem_append, List.mem_map, List.mem_filter] <;>
    [exact Or.inr (Or.inl ⟨e, ⟨he, by simp [h, hp, hd]⟩, rfl⟩);
     exact Or.inr (Or.inr ⟨e, ⟨he, by simp [h, hp, hd]⟩, rfl⟩)]

end Net
end Smoldot

/-- C2: `GossipConnected` for `(chain, peer, ConsensusTransactions)` is
reported exactly when the outbound Block-Announces substream completes its
`Pending → Open` transition with a decoded handshake whose genesis hash
equals the chain's locally configured genesis hash — after which the
substream is recorded `Open` and its `Pending` entry is gone, so the
transition cannot recur for this substream. When the handshake decodes but
its genesis hash differs, the same transition instead produces
`GossipOpenFailed` with `GenesisMismatch` carrying the local and remote
genesis hashes, the substream is closed, and every outbound Transactions
and Grandpa substream of that chain and peer is closed. -/
theorem gossipConnected_exactly_on_matching_handshake
    (s : Smoldot.Net.NetState) (sid connId c p : Nat)
    (hsub : (s.substreams.find? (fun e => e.1 = sid)).map (·.2) =
      some { connectionId := connId
             protocol := Smoldot.Net.Protocol.blockAnnounces c })
    (hpeer : (Smoldot.Net.connState s connId).peerId = some p) :
    (∀ dh : Smoldot.Net.BlockAnnouncesHandshake,
      dh.genesisHash = (Smoldot.Net.chainAt s c).genesisHash →
      ∃ s' cmds,
        Smoldot.Net.notificationsOutResult s sid
            (some (Smoldot.Net.RemoteBytes.wellFormed dh)) =
          some (s', cmds,
            Smoldot.Net.Event.gossipConnected p c
              Smoldot.Net.GossipKind.consensusTransactions
              dh.role dh.bestNumber dh.bestHash) ∧
        Smoldot.Net.openBATuple c p sid ∈ s'.notificationSubstreams ∧
        Smoldot.Net.pendingBATuple c p sid ∉ s'.notificationSubstreams) ∧
    (∀ (result : Option Smoldot.Net.RemoteBytes) s' cmds ev,
      Smoldot.Net.notificationsOutResult s sid result =
        some (s', cmds, ev) →
      (∃ role bn bh, ev = Smoldot.Net.Event.gossipConnected p c
        Smoldot.Net.GossipKind.consensusTransactions role bn bh) →
      ∃ dh, result = some (Smoldot.Net.RemoteBytes.wellFormed dh) ∧
        dh.genesisHash = (Smoldot.Net.chainAt s c).genesisHash ∧
        ev = Smoldot.Net.Event.gossipConnected p c
          Smoldot.Net.GossipKind.consensusTransactions
          dh.role dh.bestNumber dh.bestHash) ∧
    (∀ dh : Smoldot.Net.BlockAnnouncesHandshake,
      dh.genesisHash ≠ (Smoldot.Net.chainAt s c).genesisHash →
      ∃ s' cmds,
        Smoldot.Net.notificationsOutResult s sid
            (some (Smoldot.Net.RemoteBytes.wellFormed dh)) =
          some (s', cmds,
            Smoldot.Net.Event.gossipOpenFailed p c
              Smoldot.Net.GossipKind.consensusTransactions
              (Smoldot.Net.GossipConnectError.genesisMismatch
                (Smoldot.Net.chainAt s c).genesisHash dh.genesisHash)) ∧
        Smoldot.Net.InnerCmd.closeOutNotifications sid ∈ cmds ∧
        (∀ e ∈ s.notificationSubstreams,
          (e.protocol = Smoldot.Net.NotificationsProtocol.transactions c ∨
           e.protocol = Smoldot.Net.NotificationsProtocol.grandpa c) →
          e.peer = p →
          e.direction = Smoldot.Net.SubstreamDirection.outbound →
          Smoldot.Net.InnerCmd.closeOutNotifications e.substreamId ∈ cmds)) := by
  refine ⟨?_, ?_, ?_⟩
  · intro dh hg
    refine ⟨_, _, Smoldot.Net.nor_ok_eq s sid connId c p hsub hpeer dh hg,
      Smoldot.Net.baOkBranch_mem_open _ c p sid connId,
      Smoldot.Net.baOkBranch_not_mem_pending _ c p sid connId
        (Smoldot.Net.removePendingBA_not_mem s c p sid)⟩
  · intro result s' cmds ev h hev
    rcases hev with ⟨role, bn, bh, rfl⟩
    rcases result with _ | bytes
    · rw [Smoldot.Net.nor_substream_err_eq s sid connId c p hsub hpeer] at h
      simp at h
    · rcases bytes with dh | _
      · by_cases hg : dh.genesisHash = (Smoldot.Net.chainAt s c).genesisHash
        · rw [Smoldot.Net.nor_ok_eq s sid connId c p hsub hpeer dh hg] at h
          simp only [Option.some.injEq, Prod.mk.injEq,
            Smoldot.Net.Event.gossipConnected.injEq] at h
          obtain ⟨-, -, -, -, -, hr, hb, hh⟩ := h
          exact ⟨dh, rfl, hg, by rw [hr, hb, hh]⟩
        · rw [Smoldot.Net.nor_mismatch_eq s sid connId c p hsub hpeer dh hg]
            at h
          simp at h
      · rw [Smoldot.Net.nor_malformed_eq s sid connId c p hsub hpeer] at h
        simp at h
  · intro dh hg
    refine ⟨_, _,
      Smoldot.Net.nor_mismatch_eq s sid connId c p hsub hpeer dh hg,
      Smoldot.Net.baErrBranch_mem_close_ba _ c p sid _ _, ?_⟩
    intro e he hprot hp hd
    apply Smoldot.Net.baErrBranch_mem_close_txgp _ c p sid _ e ?_ hprot hp hd
    simp only [Smoldot.Net.removePendingBA, List.mem_filter, decide_eq_true_eq]
    refine ⟨he, ?_⟩
    intro hEq
    rw [hEq] at hprot
    simp [Smoldot.Net.pendingBATuple] at hprot

/-- Witness for C2: the theorem applied at the concrete state
`c1PreState` (substream `5`, connection `1`, chain `0`, peer `7`), its
hypotheses discharged by computation. -/
theorem gossipConnected_exactly_on_matching_handshake_witness :
    ((Smoldot.Net.c1PreState.substreams.find? (fun e => e.1 = 5)).map (·.2) =
      some { connectionId := 1
             protocol := Smoldot.Net.Protocol.blockAnnounces 0 }) ∧
    (Smoldot.Net.connState Smoldot.Net.c1PreState 1).peerId = some 7 ∧
    ((∀ dh : Smoldot.Net.BlockAnnouncesHandshake,
      dh.genesisHash =
        (Smoldot.Net.chainAt Smoldot.Net.c1PreState 0).genesisHash →
      ∃ s' cmds,
        Smoldot.Net.notificationsOutResult Smoldot.Net.c1PreState 5
            (some (Smoldot.Net.RemoteBytes.wellFormed dh)) =
          some (s', cmds,
            Smoldot.Net.Event.gossipConnected 7 0
              Smoldot.Net.GossipKind.consensusTransactions
              dh.role dh.bestNumber dh.bestHash) ∧
        Smoldot.Net.openBATuple 0 7 5 ∈ s'.notificationSubstreams ∧
        Smoldot.Net.pendingBATuple 0 7 5 ∉ s'.notificationSubstreams) ∧
    (∀ (result : Option Smoldot.Net.RemoteBytes) s' cmds ev,
      Smoldot.Net.notificationsOutResult Smoldot.Net.c1PreState 5 result =
        some (s', cmds, ev) →
      (∃ role bn bh, ev = Smoldot.Net.Event.gossipConnected 7 0
        Smoldot.Net.GossipKind.consensusTransactions role bn bh) →
      ∃ dh, result = some (Smoldot.Net.RemoteBytes.wellFormed dh) ∧
        dh.genesisHash =
          (Smoldot.Net.chainAt Smoldot.Net.c1PreState 0).genesisHash ∧
        ev = Smoldot.Net.Event.gossipConnected 7 0
          Smoldot.Net.GossipKind.consensusTransactions
          dh.role dh.bestNumber dh.bestHash) ∧
    (∀ dh : Smoldot.Net.BlockAnnouncesHandshake,
      dh.genesisHash ≠
        (Smoldot.Net.chainAt Smoldot.Net.c1PreState 0).genesisHash →
      ∃ s' cmds,
        Smoldot.Net.notificationsOutResult Smoldot.Net.c1PreState 5
            (some (Smoldot.Net.RemoteBytes.wellFormed dh)) =
          some (s', cmds,
            Smoldot.Net.Event.gossipOpenFailed 7 0
              Smoldot.Net.GossipKind.consensusTransactions
              (Smoldot.Net.GossipConnectError.genesisMismatch
                (Smoldot.Net.chainAt Smoldot.Net.c1PreState 0).genesisHash
                dh.genesisHash)) ∧
        Smoldot.Net.InnerCmd.closeOutNotifications 5 ∈ cmds ∧
        (∀ e ∈ Smoldot.Net.c1PreState.notificationSubstreams,
          (e.protocol = Smoldot.Net.NotificationsProtocol.transactions 0 ∨
           e.protocol = Smoldot.Net.NotificationsProtocol.grandpa 0) →
          e.peer = 7 →
          e.direction = Smoldot.Net.SubstreamDirection.outbound →
          Smoldot.Net.InnerCmd.closeOutNotifications e.substreamId ∈
            cmds))) :=
  ⟨by decide, by decide,
   gossipConnected_exactly_on_matching_handshake
     Smoldot.Net.c1PreState 5 1 0 7 (by decide) (by decide)⟩

/-- C3 counterexample: `gossip_open` does NOT return an error whenever a
Block-Announces substream exists in either direction — at `c3State` a
pending *inbound* Block-Announces substream for `(chain 0, peer 7)` exists
(previously reported via `GossipInDesired`), yet `gossip_open` succeeds,
opening a second, outbound substream. -/
theorem gossipOpen_inbound_pending_not_rejected :
    (Smoldot.Net.notifRange Smoldot.Net.c3State
        (Smoldot.Net.NotificationsProtocol.blockAnnounces 0) 7
        Smoldot.Net.SubstreamDirection.inbound ≠ []) ∧
    (Smoldot.Net.notifRangeState Smoldot.Net.c3State
        (Smoldot.Net.NotificationsProtocol.blockAnnounces 0) 7
        Smoldot.Net.SubstreamDirection.inbound
        Smoldot.Net.NotificationsSubstreamState.pending ≠ []) ∧
    (Smoldot.Net.gossipOpen Smoldot.Net.c3State 0 7
        Smoldot.Net.GossipKind.consensusTransactions).isSome = true := by
  decide

/-- C3 (amended): `gossip_open` returns an error exactly when an
*outbound* Block-Announces substream (pending or open) already exists for
`(chain, peer)` or no healthy established connection to the peer exists —
a pending inbound substream does not cause rejection — and otherwise
inserts a new outbound Block-Announces substream in the `Pending` state
whose open command carries the locally encoded handshake. -/
theorem gossipOpen_spec (s : Smoldot.Net.NetState) (chainId target : Nat)
    (kind : Smoldot.Net.GossipKind) :
    (Smoldot.Net.gossipOpen s chainId target kind = none ↔
      Smoldot.Net.notifRange s
          (Smoldot.Net.NotificationsProtocol.blockAnnounces chainId) target
          Smoldot.Net.SubstreamDirection.outbound ≠ [] ∨
        Smoldot.Net.findEstablishedConnection s target = none) ∧
    (∀ s' cmds,
      Smoldot.Net.gossipOpen s chainId target kind = some (s', cmds) →
      ∃ connId,
        Smoldot.Net.findEstablishedConnection s target = some connId ∧
        cmds = [Smoldot.Net.InnerCmd.openOutNotifications connId
          (Smoldot.Net.ProtocolName.blockAnnounces
            (Smoldot.Net.chainAt s chainId).genesisHash
            (Smoldot.Net.chainAt s chainId).forkId)
          (Smoldot.Net.NotifPayload.blockAnnouncesHandshake
            (Smoldot.Net.chainAt s chainId).bestHash
            (Smoldot.Net.chainAt s chainId).bestNumber
            (Smoldot.Net.chainAt s chainId).role
            (Smoldot.Net.chainAt s chainId).genesisHash)
          (Smoldot.Net.freshSubstreamId s)] ∧
        s'.notificationSubstreams = s.notificationSubstreams ++
          [Smoldot.Net.pendingBATuple chainId target
            (Smoldot.Net.freshSubstreamId s)]) := by
  constructor
  · unfold Smoldot.Net.gossipOpen
    by_cases hba : (Smoldot.Net.notifRange s
        (Smoldot.Net.NotificationsProtocol.blockAnnounces chainId) target
        Smoldot.Net.SubstreamDirection.outbound).isEmpty = false
    · simp only [hba, if_true]
      simp [List.isEmpty_iff] at hba
      simp [hba]
    · simp only [hba, if_false]
      simp only [Bool.not_eq_false] at hba
      rcases hfind : Smoldot.Net.findEstablishedConnection s target with _ | connId
      · simp [List.isEmpty_iff] at hba
        simp [hba, hfind]
      · simp [List.isEmpty_iff] at hba
        simp [hba, hfind]
  · intro s' cmds h
    unfold Smoldot.Net.gossipOpen at h
    cases hba : (Smoldot.Net.notifRange s
        (Smoldot.Net.NotificationsProtocol.blockAnnounces chainId) target
        Smoldot.Net.SubstreamDirection.outbound).isEmpty with
    | false =>
      rw [hba] at h
      simp at h
    | true =>
      rw [hba, if_neg (by simp : ¬ (true = false))] at h
      rcases hfind : Smoldot.Net.findEstablishedConnection s target
          with _ | connId <;> rw [hfind] at h
      · exact Option.noConfusion h
      · rw [Option.some.injEq, Prod.mk.injEq] at h
        refine ⟨connId, rfl, h.2.symm, ?_⟩
        rw [← h.1]
        split <;> rfl


/-- Witness for C3: the amended theorem applied at `c3OpenState`, where
`gossip_open` succeeds over connection `0`, allocating substream `1`. -/
theorem gossipOpen_spec_witness :
    ∃ connId,
      Smoldot.Net.findEstablishedConnection Smoldot.Net.c3OpenState 7 =
        some connId ∧
      Smoldot.Net.c3OpenCmds =
        [Smoldot.Net.InnerCmd.openOutNotifications connId
          (Smoldot.Net.ProtocolName.blockAnnounces
            (Smoldot.Net.chainAt Smoldot.Net.c3OpenState 0).genesisHash
            (Smoldot.Net.chainAt Smoldot.Net.c3OpenState 0).forkId)
          (Smoldot.Net.NotifPayload.blockAnnouncesHandshake
            (Smoldot.Net.chainAt Smoldot.Net.c3OpenState 0).bestHash
            (Smoldot.Net.chainAt Smoldot.Net.c3OpenState 0).bestNumber
            (Smoldot.Net.chainAt Smoldot.Net.c3OpenState 0).role
            (Smoldot.Net.chainAt Smoldot.Net.c3OpenState 0).genesisHash)
          (Smoldot.Net.freshSubstreamId Smoldot.Net.c3OpenState)] ∧
      Smoldot.Net.c3PostState.notificationSubstreams =
        Smoldot.Net.c3OpenState.notificationSubstreams ++
          [Smoldot.Net.pendingBATuple 0 7
            (Smoldot.Net.freshSubstreamId Smoldot.Net.c3OpenState)] :=
  (gossipOpen_spec Smoldot.Net.c3OpenState 0 7
    Smoldot.Net.GossipKind.consensusTransactions).2
    Smoldot.Net.c3PostState Smoldot.Net.c3OpenCmds (by decide)
namespace Smoldot
namespace RtSvc

theorem find?_credit (l : List (Nat × Subscription)) (sid : Nat)
    (sub : Subscription) (g : Subscription → Subscription)
    (h : l.find? (fun e => e.1 = sid) = some (sid, sub)) :
    (l.map (fun e => if e.1 = sid then (e.1, g e.2) else e)).find?
        (fun e => e.1 = sid) = some (sid, g sub) := by
  induction l with
  | nil => simp at h
  | cons e tl ih =>
    by_cases he : e.1 = sid
    · rw [List.find?_cons_of_pos _ (by simpa using he)] at h
      have he' : e = (sid, sub) := by injection h
      subst he'
      simp
    · rw [List.find?_cons_of_neg _ (by simpa using he)] at h
      rw [List.map_cons]
      simp only [he, ite_false]
      rw [List.find?_cons_of_neg _ (by simpa using he)]
      exact ih h

end RtSvc
end Smoldot

theorem unpinBlock_spec (st : Smoldot.RtSvc.SubsState) (sid h : Nat) :
    ((∀ e ∈ st.subscriptions, e.1 ≠ sid) →
     (∀ e ∈ st.pinnedBlocks, e.1.1 ≠ sid) →
     Smoldot.RtSvc.unpinBlockInner true st sid h = some st) ∧
    ((Smoldot.RtSvc.lookupSub st sid).isSome = true →
     st.pinnedBlocks.find? (fun e => e.1 = (sid, h)) = none →
     Smoldot.RtSvc.unpinBlockInner true st sid h = none) ∧
    (∀ entry sub,
     st.pinnedBlocks.find? (fun e => e.1 = (sid, h)) = some entry →
     st.subscriptions.find? (fun e => e.1 = sid) = some (sid, sub) →
     entry.2.blockIgnoresLimit = false →
     ∃ st', Smoldot.RtSvc.unpinBlockInner true st sid h = some st' ∧
       Smoldot.RtSvc.lookupSub st' sid = some
         { sub with finalizedPinnedRemaining :=
             sub.finalizedPinnedRemaining + 1 } ∧
       st'.pinnedBlocks.find? (fun e => e.1 = (sid, h)) = none) ∧
    (∀ entry,
     st.pinnedBlocks.find? (fun e => e.1 = (sid, h)) = some entry →
     entry.2.blockIgnoresLimit = true →
     ∃ st', Smoldot.RtSvc.unpinBlockInner true st sid h = some st' ∧
       st'.subscriptions = st.subscriptions ∧
       st'.pinnedBlocks.find? (fun e => e.1 = (sid, h)) = none) := by
  refine ⟨?_, ?_, ?_, ?_⟩
  · intro hnosub hnopin
    have h1 : st.pinnedBlocks.find? (fun e => e.1 = (sid, h)) = none := by
      rw [List.find?_eq_none]
      intro x hx
      simp only [decide_eq_true_eq]
      intro hEq
      exact hnopin x hx (by rw [hEq])
    have h2 : st.subscriptions.find? (fun e => e.1 = sid) = none := by
      rw [List.find?_eq_none]
      intro x hx
      simp only [decide_eq_true_eq]
      exact hnosub x hx
    unfold Smoldot.RtSvc.unpinBlockInner
    simp [h1, h2]
  · intro hlook h1
    have h2 : (st.subscriptions.find? (fun e => e.1 = sid)).isSome = true := by
      simpa [Smoldot.RtSvc.lookupSub] using hlook
    unfold Smoldot.RtSvc.unpinBlockInner
    simp [h1, h2]
  · intro entry sub hpin hsub hignore
    have hfil : (st.pinnedBlocks.filter
        (fun e => e.1 ≠ (sid, h))).find?
          (fun e => e.1 = (sid, h)) = none := by
      rw [List.find?_eq_none]
      intro x hx
      simp only [decide_eq_true_eq]
      have := (List.mem_filter.mp hx).2
      simpa using this
    refine ⟨⟨st.subscriptions.map
        (fun e => if e.1 = sid then
          (e.1, { e.2 with finalizedPinnedRemaining :=
            e.2.finalizedPinnedRemaining + 1 }) else e),
      st.pinnedBlocks.filter (fun e => e.1 ≠ (sid, h))⟩, ?_, ?_, hfil⟩
    · unfold Smoldot.RtSvc.unpinBlockInner
      rw [hpin]
      simp only [hignore, hsub]
      rfl
    · simp only [Smoldot.RtSvc.lookupSub]
      rw [Smoldot.RtSvc.find?_credit st.subscriptions sid sub
        (fun s => { s with finalizedPinnedRemaining :=
          s.finalizedPinnedRemaining + 1 }) hsub]
      rfl
  · intro entry hpin hignore
    have hfil : (st.pinnedBlocks.filter
        (fun e => e.1 ≠ (sid, h))).find?
          (fun e => e.1 = (sid, h)) = none := by
      rw [List.find?_eq_none]
      intro x hx
      simp only [decide_eq_true_eq]
      have := (List.mem_filter.mp hx).2
      simpa using this
    refine ⟨⟨st.subscriptions,
      st.pinnedBlocks.filter (fun e => e.1 ≠ (sid, h))⟩, ?_, rfl, hfil⟩
    unfold Smoldot.RtSvc.unpinBlockInner
    rw [hpin]
    simp only [hignore]
    rfl
namespace Smoldot
namespace RtSvc

theorem assoc_key_unique {β : Type} (l : List (Nat × β))
    (hnd : (l.map Prod.fst).Nodup) {k : Nat} {a b : β}
    (ha : (k, a) ∈ l) (hb : (k, b) ∈ l) : a = b := by
  induction l with
  | nil => cases ha
  | cons e tl ih =>
    rw [List.map_cons, List.nodup_cons] at hnd
    rcases List.mem_cons.mp ha with ha' | ha' <;>
      rcases List.mem_cons.mp hb with hb' | hb'
    · have := ha'.trans hb'.symm
      simpa using this
    · exfalso
      apply hnd.1
      rw [← ha']
      exact List.mem_map.mpr ⟨(k, b), hb', rfl⟩
    · exfalso
      apply hnd.1
      rw [← hb']
      exact List.mem_map.mpr ⟨(k, a), ha', rfl⟩
    · exact ih hnd.2 ha' hb'

theorem contains_eq_false_of_not_mem {α : Type} [BEq α] [LawfulBEq α]
    {l : List α} {a : α} (h : a ∉ l) : l.contains a = false := by
  cases hc : l.contains a
  · rfl
  · exact absurd (List.elem_iff.mp hc) h

end RtSvc
end Smoldot

/-- C4: on a `Finalized` notification, a live subscription whose budget
covers `1 + |pruned|` is delivered the notification: its
`finalized_pinned_remaining` is debited by `1 + |pruned|` and the pinned
entries for the newly finalized block and every pruned block get
`ignores_limit = false` (other pinned entries are unchanged); a
subscription whose budget is smaller is instead dropped: it is not
delivered the notification, its subscription entry and all of its pinned
entries are removed. The budget starts at `max_pinned_blocks - 1` when
`subscribe_all` registers the subscription. -/
theorem finalized_pin_accounting (st : Smoldot.RtSvc.SubsState)
    (finalizedHash : Nat) (pruned : List Nat) (sid : Nat)
    (sub : Smoldot.RtSvc.Subscription)
    (hnd : (st.subscriptions.map Prod.fst).Nodup)
    (hmem : (sid, sub) ∈ st.subscriptions) :
    (∀ (st₀ : Smoldot.RtSvc.SubsState) (i : Nat) (ok : Bool) (mx : Nat),
      ∃ e ∈ (Smoldot.RtSvc.subscribeAllInsert st₀ i ok mx).subscriptions,
        e.1 = i ∧ e.2.finalizedPinnedRemaining = mx - 1) ∧
    (pruned.length + 1 ≤ sub.finalizedPinnedRemaining →
     sub.sendOk = true →
      sid ∈ (Smoldot.RtSvc.advanceFinalized st finalizedHash pruned).2 ∧
      (sid, { sub with finalizedPinnedRemaining :=
          sub.finalizedPinnedRemaining - (pruned.length + 1) }) ∈
        (Smoldot.RtSvc.advanceFinalized st finalizedHash
          pruned).1.subscriptions ∧
      (∀ pin h, ((sid, h), pin) ∈ st.pinnedBlocks →
        h ∈ finalizedHash :: pruned →
        ((sid, h), { pin with blockIgnoresLimit := false }) ∈
          (Smoldot.RtSvc.advanceFinalized st finalizedHash
            pruned).1.pinnedBlocks) ∧
      (∀ pin h, ((sid, h), pin) ∈ st.pinnedBlocks →
        h ∉ finalizedHash :: pruned →
        ((sid, h), pin) ∈
          (Smoldot.RtSvc.advanceFinalized st finalizedHash
            pruned).1.pinnedBlocks)) ∧
    (sub.finalizedPinnedRemaining < pruned.length + 1 →
      sid ∉ (Smoldot.RtSvc.advanceFinalized st finalizedHash pruned).2 ∧
      (∀ e ∈ (Smoldot.RtSvc.advanceFinalized st finalizedHash
          pruned).1.subscriptions, e.1 ≠ sid) ∧
      (∀ e ∈ (Smoldot.RtSvc.advanceFinalized st finalizedHash
          pruned).1.pinnedBlocks, e.1.1 ≠ sid)) := by
  refine ⟨?_, ?_, ?_⟩
  · intro st₀ i ok mx
    refine ⟨(i, { sendOk := ok, finalizedPinnedRemaining := mx - 1 }),
      ?_, rfl, rfl⟩
    simp [Smoldot.RtSvc.subscribeAllInsert]
  · intro hbudget hsend
    have hproc : Smoldot.RtSvc.processFinalizedSub (pruned.length + 1) sub
        = some { sub with finalizedPinnedRemaining :=
            sub.finalizedPinnedRemaining - (pruned.length + 1) } := by
      simp [Smoldot.RtSvc.processFinalizedSub, Nat.not_lt.mpr hbudget, hsend]
    have hres : (sid, Smoldot.RtSvc.processFinalizedSub (pruned.length + 1)
        sub) ∈ st.subscriptions.map
          (fun e => (e.1, Smoldot.RtSvc.processFinalizedSub
            (pruned.length + 1) e.2)) :=
      List.mem_map.mpr ⟨(sid, sub), hmem, rfl⟩
    have hdeliv : sid ∈
        (Smoldot.RtSvc.advanceFinalized st finalizedHash pruned).2 := by
      simp only [Smoldot.RtSvc.advanceFinalized]
      refine List.mem_map.mpr ⟨(sid, Smoldot.RtSvc.processFinalizedSub
        (pruned.length + 1) sub), List.mem_filter.mpr ⟨hres, ?_⟩, rfl⟩
      rw [hproc]
      rfl
    have hnotrem : sid ∉ (((st.subscriptions.map
        (fun e => (e.1, Smoldot.RtSvc.processFinalizedSub
          (pruned.length + 1) e.2))).filter
            (fun e => e.2.isNone)).map (·.1)) := by
      intro hin
      obtain ⟨a, hafil, hak⟩ := List.mem_map.mp hin
      obtain ⟨hares, hanone⟩ := List.mem_filter.mp hafil
      obtain ⟨b, hbmem, hbeq⟩ := List.mem_map.mp hares
      have hb1 : b.1 = sid := by
        rw [← hak, ← hbeq]
      have : Smoldot.RtSvc.processFinalizedSub (pruned.length + 1) b.2
          = a.2 := by rw [← hbeq]
      have hbsub : b.2 = sub := by
        refine Smoldot.RtSvc.assoc_key_unique st.subscriptions hnd ?_ hmem
        rw [← hb1]
        exact hbmem
      rw [hbsub, hproc] at this
      rw [← this] at hanone
      simp at hanone
    refine ⟨hdeliv, ?_, ?_, ?_⟩
    · simp only [Smoldot.RtSvc.advanceFinalized]
      refine List.mem_filterMap.mpr ⟨(sid, Smoldot.RtSvc.processFinalizedSub
        (pruned.length + 1) sub), hres, ?_⟩
      rw [hproc]
      rfl
    · intro pin h hpmem hh
      have hdeliv' : sid ∈ (((st.subscriptions.map
          (fun e => (e.1, Smoldot.RtSvc.processFinalizedSub
            (pruned.length + 1) e.2))).filter
              (fun e => e.2.isSome)).map (·.1)) := by
        refine List.mem_map.mpr ⟨(sid, Smoldot.RtSvc.processFinalizedSub
          (pruned.length + 1) sub), List.mem_filter.mpr ⟨hres, ?_⟩, rfl⟩
        rw [hproc]
        rfl
      simp only [Smoldot.RtSvc.advanceFinalized]
      refine List.mem_filter.mpr ⟨?_, ?_⟩
      · refine List.mem_map.mpr ⟨((sid, h), pin), hpmem, ?_⟩
        refine if_pos ?_
        rw [Bool.and_eq_true]
        exact ⟨List.elem_iff.mpr hdeliv', List.elem_iff.mpr hh⟩
      · simp only [Bool.not_eq_true']
        exact Smoldot.RtSvc.contains_eq_false_of_not_mem hnotrem
    · intro pin h hpmem hh
      simp only [Smoldot.RtSvc.advanceFinalized]
      refine List.mem_filter.mpr ⟨?_, ?_⟩
      · refine List.mem_map.mpr ⟨((sid, h), pin), hpmem, ?_⟩
        refine if_neg ?_
        intro hcond
        rw [Bool.and_eq_true] at hcond
        exact hh (List.elem_iff.mp hcond.2)
      · simp only [Bool.not_eq_true']
        exact Smoldot.RtSvc.contains_eq_false_of_not_mem hnotrem
  · intro hlt
    have hproc : Smoldot.RtSvc.processFinalizedSub (pruned.length + 1) sub
        = none := by
      simp [Smoldot.RtSvc.processFinalizedSub, hlt]
    have hrem : sid ∈ (((st.subscriptions.map
        (fun e => (e.1, Smoldot.RtSvc.processFinalizedSub
          (pruned.length + 1) e.2))).filter
            (fun e => e.2.isNone)).map (·.1)) := by
      refine List.mem_map.mpr ⟨(sid, Smoldot.RtSvc.processFinalizedSub
        (pruned.length + 1) sub), List.mem_filter.mpr
          ⟨List.mem_map.mpr ⟨(sid, sub), hmem, rfl⟩, ?_⟩, rfl⟩
      rw [hproc]
      rfl
    refine ⟨?_, ?_, ?_⟩
    · intro hin
      simp only [Smoldot.RtSvc.advanceFinalized] at hin
      obtain ⟨a, hafil, hak⟩ := List.mem_map.mp hin
      obtain ⟨hares, hasome⟩ := List.mem_filter.mp hafil
      obtain ⟨b, hbmem, hbeq⟩ := List.mem_map.mp hares
      have hb1 : b.1 = sid := by rw [← hak, ← hbeq]
      have hbsub : b.2 = sub := by
        refine Smoldot.RtSvc.assoc_key_unique st.subscriptions hnd ?_ hmem
        rw [← hb1]
        exact hbmem
      have : Smoldot.RtSvc.processFinalizedSub (pruned.length + 1) b.2
          = a.2 := by rw [← hbeq]
      rw [hbsub, hproc] at this
      rw [← this] at hasome
      simp at hasome
    · intro e he
      simp only [Smoldot.RtSvc.advanceFinalized] at he
      obtain ⟨a, hares, haeq⟩ := List.mem_filterMap.mp he
      obtain ⟨b, hbmem, hbeq⟩ := List.mem_map.mp hares
      intro hek
      have ha2 : ∃ v, a.2 = some v := by
        rcases ha : a.2 with _ | v
        · rw [ha] at haeq
          simp at haeq
        · exact ⟨v, rfl⟩
      obtain ⟨v, hav⟩ := ha2
      have hae1 : a.1 = e.1 := by
        rw [hav] at haeq
        have h' : (a.1, v) = e := Option.some.inj haeq
        rw [← h']
      have hb1 : b.1 = sid := by
        have : a.1 = sid := hae1.trans hek
        rw [← this, ← hbeq]
      have hbsub : b.2 = sub := by
        refine Smoldot.RtSvc.assoc_key_unique st.subscriptions hnd ?_ hmem
        rw [← hb1]
        exact hbmem
      have : Smoldot.RtSvc.processFinalizedSub (pruned.length + 1) b.2
          = a.2 := by rw [← hbeq]
      rw [hbsub, hproc, hav] at this
      exact Option.noConfusion this
    · intro e he
      simp only [Smoldot.RtSvc.advanceFinalized] at he
      obtain ⟨hmem₁, hkeep⟩ := List.mem_filter.mp he
      intro hek
      rw [Bool.not_eq_true'] at hkeep
      rw [hek] at hkeep
      have hct := List.elem_iff.mpr hrem
      exact Bool.noConfusion (hct.symm.trans hkeep)

/-- Witness for C10: at `c10State`, unpinning with the unregistered
subscription id `2` is a silent no-op, and unpinning block `9` under
subscription `1` (whose entry has `ignores_limit = false`) removes the
entry and credits the budget from `2` back to `3`. -/
theorem unpinBlock_spec_witness :
    (Smoldot.RtSvc.unpinBlockInner true Smoldot.RtSvc.c10State 2 9 =
      some Smoldot.RtSvc.c10State) ∧
    (∃ st', Smoldot.RtSvc.unpinBlockInner true Smoldot.RtSvc.c10State 1 9 =
        some st' ∧
      Smoldot.RtSvc.lookupSub st' 1 =
        some { sendOk := true, finalizedPinnedRemaining := 3 } ∧
      st'.pinnedBlocks.find? (fun e => e.1 = (1, 9)) = none) :=
  ⟨(unpinBlock_spec Smoldot.RtSvc.c10State 2 9).1 (by decide) (by decide),
   (unpinBlock_spec Smoldot.RtSvc.c10State 1 9).2.2.1
     ((1, 9), { runtime := 0, stateTrieRootHash := 0, blockNumber := 5
                blockIgnoresLimit := false })
     { sendOk := true, finalizedPinnedRemaining := 2 }
     (by decide) (by decide) (by decide)⟩

/-- Witness for C4: finalizing block `9` with pruned set `[8]` at
`c4State`. Subscription `1` (budget `3` ≥ `2`) is delivered: its budget
drops to `1` and its pinned entries for `9` and `8` lose `ignores_limit`
while the entry for `7` is untouched; subscription `2` (budget `1` < `2`)
is dropped with all its pinned entries. -/
theorem finalized_pin_accounting_witness :
    (1 ∈ (Smoldot.RtSvc.advanceFinalized Smoldot.RtSvc.c4State 9 [8]).2 ∧
     (1, { sendOk := true, finalizedPinnedRemaining := 1 }) ∈
       (Smoldot.RtSvc.advanceFinalized Smoldot.RtSvc.c4State 9
         [8]).1.subscriptions ∧
     (∀ pin h, ((1, h), pin) ∈ Smoldot.RtSvc.c4State.pinnedBlocks →
       h ∈ 9 :: [8] →
       ((1, h), { pin with blockIgnoresLimit := false }) ∈
         (Smoldot.RtSvc.advanceFinalized Smoldot.RtSvc.c4State 9
           [8]).1.pinnedBlocks) ∧
     (∀ pin h, ((1, h), pin) ∈ Smoldot.RtSvc.c4State.pinnedBlocks →
       h ∉ 9 :: [8] →
       ((1, h), pin) ∈
         (Smoldot.RtSvc.advanceFinalized Smoldot.RtSvc.c4State 9
           [8]).1.pinnedBlocks)) ∧
    (2 ∉ (Smoldot.RtSvc.advanceFinalized Smoldot.RtSvc.c4State 9 [8]).2 ∧
     (∀ e ∈ (Smoldot.RtSvc.advanceFinalized Smoldot.RtSvc.c4State 9
         [8]).1.subscriptions, e.1 ≠ 2) ∧
     (∀ e ∈ (Smoldot.RtSvc.advanceFinalized Smoldot.RtSvc.c4State 9
         [8]).1.pinnedBlocks, e.1.1 ≠ 2)) :=
  ⟨(finalized_pin_accounting Smoldot.RtSvc.c4State 9 [8] 1
      { sendOk := true, finalizedPinnedRemaining := 3 }
      (by decide) (by decide)).2.1 (by decide) (by decide),
   (finalized_pin_accounting Smoldot.RtSvc.c4State 9 [8] 2
      { sendOk := true, finalizedPinnedRemaining := 1 }
      (by decide) (by decide)).2.2 (by decide)⟩

/-- C5: the `parent_hash` delivered for blocks of the initial
`subscribe_all` snapshot IS the parent-hash field copied out of the
block's header (`runtime_service.rs` lines 298-303), and it can name a
block that was never reported: at `c5Tree`, `subscribe_all` completes
without panicking (the parent-runtime lookup of lines 293-296 takes the
finalized fallback) and reports block `3` with `parent_hash = 5`, yet `5`
is neither the initial finalized block (`1`) nor any previously reported
block; the code's own `debug_assert!` (lines 304-309) evaluates to false
at this state, while the `Block` notification delivered later for the
same block is tree-derived (`blockNotifParentHash`, here `1`), as the
claim describes. Separately, at `c5PanicTree` — a reported block whose
tree parent's runtime is unknown — the `.unwrap()` of lines 293-296
panics and `subscribe_all` produces no snapshot at all. -/
theorem snapshot_parent_hash_code_bug :
    Smoldot.RtSvc.snapshotBlocks Smoldot.RtSvc.c5Tree = some [(3, 5)] ∧
    (Smoldot.RtSvc.snapshotBlocks Smoldot.RtSvc.c5Tree).map
      (Smoldot.RtSvc.parentsPreviouslyReported
        [Smoldot.RtSvc.c5Tree.finalizedHash]) = some false ∧
    Smoldot.RtSvc.snapshotDebugAssert Smoldot.RtSvc.c5Tree = false ∧
    Smoldot.RtSvc.blockNotifParentHash Smoldot.RtSvc.c5Tree 0 = 1 ∧
    Smoldot.RtSvc.snapshotBlocks Smoldot.RtSvc.c5PanicTree = none := by
  decide

/-- C7: when a runtime download finishes and no live runtime has the same
`code` and `heappages` (so `from_storage` runs with the code present and
heap pages valid), the first compilation attempt uses
`allow_unresolved_imports = false`; a second attempt, with
`allow_unresolved_imports = true`, happens exactly when the first fails
with an unresolved-import error, and the warning is logged exactly when
that retry succeeds; any other failure of the first attempt, or a
non-unresolved-import failure of the retry, yields a `Build` error entry
instead of a compiled VM. When an identical live runtime exists, no
compilation happens at all. -/
theorem runtime_compile_retry_spec
    (runtimes : List (Nat × Option Nat × Option Nat))
    (code heap : Option Nat) (env : Smoldot.Compile.CompileEnv)
    (m : Nat) (hcode : code = some m)
    (hdedup : Smoldot.Compile.findExistingRuntime runtimes code heap = none) :
    (∀ spec, env.attempt false = Sum.inr spec →
      Smoldot.Compile.runtimeDownloadFinished runtimes code heap true env =
        some (Sum.inr (Sum.inr { runtimeSpec := spec }, [false], false))) ∧
    (∀ f mo spec,
      env.attempt false =
        Sum.inl (Smoldot.Compile.NewErr.unresolvedFunctionImport f mo) →
      env.attempt true = Sum.inr spec →
      Smoldot.Compile.runtimeDownloadFinished runtimes code heap true env =
        some (Sum.inr (Sum.inr { runtimeSpec := spec },
          [false, true], true))) ∧
    (∀ f mo c,
      env.attempt false =
        Sum.inl (Smoldot.Compile.NewErr.unresolvedFunctionImport f mo) →
      env.attempt true = Sum.inl (Smoldot.Compile.NewErr.other c) →
      Smoldot.Compile.runtimeDownloadFinished runtimes code heap true env =
        some (Sum.inr (Sum.inl (Smoldot.Compile.RuntimeError.build
          (Smoldot.Compile.NewErr.other c)), [false, true], false))) ∧
    (∀ c, env.attempt false = Sum.inl (Smoldot.Compile.NewErr.other c) →
      Smoldot.Compile.runtimeDownloadFinished runtimes code heap true env =
        some (Sum.inr (Sum.inl (Smoldot.Compile.RuntimeError.build
          (Smoldot.Compile.NewErr.other c)), [false], false))) ∧
    (∀ r attempts warned,
      Smoldot.Compile.runtimeDownloadFinished runtimes code heap true env =
        some (Sum.inr (r, attempts, warned)) →
      (attempts = [false, true] ↔
        ∃ f mo, env.attempt false =
          Sum.inl (Smoldot.Compile.NewErr.unresolvedFunctionImport f mo))) ∧
    (∀ existing,
      Smoldot.Compile.findExistingRuntime runtimes code heap =
        some existing →
      Smoldot.Compile.runtimeDownloadFinished runtimes code heap true env =
        some (Sum.inl existing)) := by
  subst hcode
  refine ⟨?_, ?_, ?_, ?_, ?_, ?_⟩
  · intro spec h
    simp [Smoldot.Compile.runtimeDownloadFinished, hdedup,
      Smoldot.Compile.fromStorage, h]
  · intro f mo spec h1 h2
    simp [Smoldot.Compile.runtimeDownloadFinished, hdedup,
      Smoldot.Compile.fromStorage, h1, h2]
  · intro f mo c h1 h2
    simp [Smoldot.Compile.runtimeDownloadFinished, hdedup,
      Smoldot.Compile.fromStorage, h1, h2]
  · intro c h
    simp [Smoldot.Compile.runtimeDownloadFinished, hdedup,
      Smoldot.Compile.fromStorage, h]
  · intro r attempts warned h
    rcases h1 : env.attempt false with err | spec
    · rcases err with ⟨f, mo⟩ | c
      · have hattempts : attempts = [false, true] := by
          rcases h2 : env.attempt true with err2 | spec2
          · rcases err2 with ⟨f2, mo2⟩ | c2
            · simp [Smoldot.Compile.runtimeDownloadFinished, hdedup,
                Smoldot.Compile.fromStorage, h1, h2] at h
            · simp [Smoldot.Compile.runtimeDownloadFinished, hdedup,
                Smoldot.Compile.fromStorage, h1, h2] at h
              exact h.2.1.symm
          · simp [Smoldot.Compile.runtimeDownloadFinished, hdedup,
              Smoldot.Compile.fromStorage, h1, h2] at h
            exact h.2.1.symm
        exact ⟨fun _ => ⟨f, mo, rfl⟩, fun _ => hattempts⟩
      · simp [Smoldot.Compile.runtimeDownloadFinished, hdedup,
          Smoldot.Compile.fromStorage, h1] at h
        obtain ⟨-, h2, -⟩ := h
        constructor
        · intro ha
          rw [← h2] at ha
          simp at ha
        · rintro ⟨f, mo, hf⟩
          simp at hf
    · simp [Smoldot.Compile.runtimeDownloadFinished, hdedup,
        Smoldot.Compile.fromStorage, h1] at h
      obtain ⟨-, h2, -⟩ := h
      constructor
      · intro ha
        rw [← h2] at ha
        simp at ha
      · rintro ⟨f, mo, hf⟩
        simp at hf
  · intro existing h
    rw [h] at hdedup
    exact Option.noConfusion hdedup

/-- Witness for C7: the S4 scenario — the first attempt fails with
`UnresolvedFunctionImport{function=foo, module=env}`, the relaxed retry
succeeds, and the warning is logged. -/
theorem runtime_compile_retry_spec_witness :
    Smoldot.Compile.runtimeDownloadFinished [] (some 1) none true
        Smoldot.Compile.s4Env =
      some (Sum.inr (Sum.inr { runtimeSpec := 42 }, [false, true], true)) :=
  (runtime_compile_retry_spec [] (some 1) none Smoldot.Compile.s4Env 1
    rfl (by decide)).2.1 "foo" "env" 42 rfl rfl
namespace Smoldot
namespace Host

theorem writeChunks_lt (chunks : List String) :
    ∀ logs l, writeChunks logs chunks = some l →
      logs.length < 1024 * 1024 → l.length < 1024 * 1024 := by
  induction chunks with
  | nil =>
    intro logs l h hlen
    simp [writeChunks] at h
    rw [← h]
    exact hlen
  | cons s rest ih =>
    intro logs l h hlen
    simp only [writeChunks] at h
    rcases hw : writeStr logs s with _ | logs'
    · rw [hw] at h
      exact Option.noConfusion h
    · rw [hw] at h
      refine ih logs' l h ?_
      unfold writeStr at hw
      by_cases hc : 1024 * 1024 ≤ logs.length + s.length
      · simp [hc] at hw
      · simp only [hc, if_neg, ite_false, Option.some.injEq] at hw
        rw [← hw, String.length_append]
        omega

theorem run_logs_lt (ops : List HostOp) :
    ∀ (t : Terminal) (logs : String), logs.length < 1024 * 1024 →
      ∀ v lg, run ops t logs = RunResult.finished (Sum.inl (v, lg)) →
        lg.length < 1024 * 1024 := by
  induction ops with
  | nil =>
    intro t logs hlen v lg h
    cases t with
    | finished w =>
      simp [run] at h
      rw [← h.2]
      exact hlen
    | trapped => simp [run] at h
  | cons op rest ih =>
    intro t logs hlen v lg h
    cases op with
    | storageGetMain k => simp [run] at h
    | storageGetChild => exact ih t logs hlen v lg h
    | nextKeyMain k => simp [run] at h
    | nextKeyChild => exact ih t logs hlen v lg h
    | nextChildTrie => exact ih t logs hlen v lg h
    | storageRootMain => simp [run] at h
    | storageRootChild => exact ih t logs hlen v lg h
    | signatureVerification => simp [run] at h
    | callRuntimeVersion ok => exact ih t logs hlen v lg h
    | getMaxLogLevel => exact ih t logs hlen v lg h
    | logEmit chunks =>
      simp only [run] at h
      rcases hw : writeChunks logs chunks with _ | logs'
      · rw [hw] at h
        simp at h
      · rw [hw] at h
        exact ih t logs' (writeChunks_lt chunks logs logs' hw hlen) v lg h
    | forbidden => simp [run] at h

end Host
end Smoldot

/-- C8: during a read-only runtime call, child-trie storage get /
next-key / storage-root host calls (and `ExternalStorageNextChildTrie`)
are answered with `None` without interrupting execution; runtime log
output is accumulated below the 1 MiB cap — an emission that would take
the accumulated length to the cap or beyond terminates the call with
`LogsTooLong`, and any successfully finishing call returns logs below the
cap in `Success.logs` — and any host call outside the supported set
terminates the call with `ForbiddenHostCall`. -/
theorem readonly_host_call_handling :
    (∀ (rest : List Smoldot.Host.HostOp) (t : Smoldot.Host.Terminal)
        (logs : String),
      Smoldot.Host.run (Smoldot.Host.HostOp.storageGetChild :: rest) t logs
          = Smoldot.Host.run rest t logs ∧
      Smoldot.Host.run (Smoldot.Host.HostOp.nextKeyChild :: rest) t logs
          = Smoldot.Host.run rest t logs ∧
      Smoldot.Host.run (Smoldot.Host.HostOp.nextChildTrie :: rest) t logs
          = Smoldot.Host.run rest t logs ∧
      Smoldot.Host.run (Smoldot.Host.HostOp.storageRootChild :: rest) t
          logs = Smoldot.Host.run rest t logs) ∧
    (∀ (rest : List Smoldot.Host.HostOp) (t : Smoldot.Host.Terminal)
        (logs s : String),
      (1024 * 1024 ≤ logs.length + s.length →
        Smoldot.Host.run (Smoldot.Host.HostOp.logEmit [s] :: rest) t logs =
          Smoldot.Host.RunResult.finished
            (Sum.inr Smoldot.Host.ErrorDetail.logsTooLong)) ∧
      (logs.length + s.length < 1024 * 1024 →
        Smoldot.Host.run (Smoldot.Host.HostOp.logEmit [s] :: rest) t logs =
          Smoldot.Host.run rest t (logs ++ s))) ∧
    (∀ (ops : List Smoldot.Host.HostOp) (t : Smoldot.Host.Terminal)
        (logs : String) (v : Nat) (lg : String),
      logs.length < 1024 * 1024 →
      Smoldot.Host.run ops t logs =
        Smoldot.Host.RunResult.finished (Sum.inl (v, lg)) →
      lg.length < 1024 * 1024) ∧
    (∀ (rest : List Smoldot.Host.HostOp) (t : Smoldot.Host.Terminal)
        (logs : String),
      Smoldot.Host.run (Smoldot.Host.HostOp.forbidden :: rest) t logs =
        Smoldot.Host.RunResult.finished
          (Sum.inr Smoldot.Host.ErrorDetail.forbiddenHostCall)) := by
  refine ⟨?_, ?_, ?_, ?_⟩
  · intro rest t logs
    exact ⟨rfl, rfl, rfl, rfl⟩
  · intro rest t logs s
    constructor
    · intro hc
      simp [Smoldot.Host.run, Smoldot.Host.writeChunks,
        Smoldot.Host.writeStr, hc]
    · intro hc
      have hc' : ¬ (1024 * 1024 ≤ logs.length + s.length) :=
        Nat.not_le.mpr hc
      simp [Smoldot.Host.run, Smoldot.Host.writeChunks,
        Smoldot.Host.writeStr, hc']
  · intro ops t logs v lg hlen h
    exact Smoldot.Host.run_logs_lt ops t logs hlen v lg h
  · intro rest t logs
    rfl

/-- Witness for C8: emitting a 1 MiB log chunk on an empty accumulator
terminates the call with `LogsTooLong`; a call that finishes with `"ab"`
accumulated stays below the cap and returns those logs. -/
theorem readonly_host_call_handling_witness :
    (Smoldot.Host.run
        [Smoldot.Host.HostOp.logEmit [Smoldot.Host.bigChunk]]
        (Smoldot.Host.Terminal.finished 0) "" =
      Smoldot.Host.RunResult.finished
        (Sum.inr Smoldot.Host.ErrorDetail.logsTooLong)) ∧
    ("ab".length < 1024 * 1024) ∧
    (Smoldot.Host.run [Smoldot.Host.HostOp.getMaxLogLevel]
        (Smoldot.Host.Terminal.finished 7) "ab" =
      Smoldot.Host.RunResult.finished (Sum.inl (7, "ab"))) :=
  ⟨(readonly_host_call_handling.2.1 []
      (Smoldot.Host.Terminal.finished 0) "" Smoldot.Host.bigChunk).1
      (by
        have h1 : Smoldot.Host.bigChunk.length =
            (List.replicate (1024 * 1024) 'a').length := rfl
        rw [List.length_replicate] at h1
        rw [h1]
        simp),
   readonly_host_call_handling.2.2.1
     [Smoldot.Host.HostOp.getMaxLogLevel]
     (Smoldot.Host.Terminal.finished 7) "ab" 7 "ab" (by decide) rfl,
   rfl⟩

/-- C9: a connection-driver task never has two sends to the coordinator
in flight at once — for every sequence of pull results and wake-ups, the
trace of driver actions satisfies the discipline that `startedSend` only
occurs with no send outstanding and, between a `startedSend` and the
matching `sendCompleted`, the driver neither processes socket I/O through
the state machine nor pulls a further message (coordinator messages may
still be injected). -/
theorem driver_single_inflight_send
    (inputs : List (Option Bool × Smoldot.Driver.Wake)) :
    Smoldot.Driver.traceOk false
      (Smoldot.Driver.runDriver false inputs) = true := by
  suffices h : ∀ (sending : Bool)
      (inputs : List (Option Bool × Smoldot.Driver.Wake)),
      Smoldot.Driver.traceOk sending
        (Smoldot.Driver.runDriver sending inputs) = true from
    h false inputs
  intro sending inputs
  induction inputs generalizing sending with
  | nil => cases sending <;> rfl
  | cons hd tl ih =>
    obtain ⟨pull, wake⟩ := hd
    cases sending <;>
      rcases pull with _ | _ | _ <;>
      cases wake <;>
      simp [Smoldot.Driver.runDriver, Smoldot.Driver.loopIter,
        Smoldot.Driver.handleWake, Smoldot.Driver.traceOk, ih]
